import Mathlib

/-! keep-ecdsa: the tBTC chain gateway and the contract address configuration.

A shallow embedding of `pkg/chain/ethereum/tbtc.go` and
`pkg/chain/eth/ethereum/config.go`, and theorems about it.

Conventions of the embedding.

* A Go `string` is its sequence of bytes (`GoString`); a `uint8` is a `Byte`; an array
  `[n]uint8` is a list of `n` bytes; a `uint64` is a natural number (the gateway does no
  arithmetic on it); a `*big.Int` is an `Option Int`.
* A Go `error` value is an `Option GoError`, `none` being `nil`.
* A Go result tuple `(T, error)` is a pair. A pointer is an `Option`, `none` being
  `nil`; a struct behind a pointer is identified with its fields. A call of the source
  ends in an `Outcome`: it returns, or it panics where the source dereferences nil.
* The functions of `github.com/ethereum/go-ethereum/common` that the source calls
  (`IsHexAddress`, `HexToAddress`, `Address.Hex`) are embedded from that package, with
  `encoding/hex` and the legacy Keccak-256 of `golang.org/x/crypto/sha3` under them.
* The generated contract bindings (`contract.NewTBTCSystem`, `contract.NewDeposit`,
  the methods of `*contract.Deposit` and of `*contract.TBTCSystem`) and the logger
  are collaborators: they are the fields of `Collaborators`, arbitrary functions on
  an arbitrary collaborator state. Every call the source makes to one of them is
  appended to the `trace` of the `World`, with the arguments it passes.
* A handler or callback is a function on the collaborator state.
-/

namespace GoModel

/-- A Go `uint8`. -/
abbrev Byte := Fin 256

/-- A Go `string`: an immutable sequence of bytes. -/
abbrev GoString := List Byte

/-- A Go array `[n]uint8`. -/
abbrev FixedBytes (n : Nat) := { l : List Byte // l.length = n }

/-- The bytes of a string constant of the source (all of them are ASCII). -/
def ascii (s : String) : GoString := s.data.map fun c => Fin.ofNat c.toNat

/-- A Go `error` value that is not `nil`. The gateway only ever builds errors with
`fmt.Errorf` and a format without `%w`; every other error value comes from a
collaborator, and `tag` stands for its dynamic type and identity. -/
inductive GoError where
  | errorString (text : GoString)
  | foreign (tag : Nat) (text : GoString)
  deriving DecidableEq, Repr

/-- The method `Error() string` of an error value. -/
def GoError.Error : GoError → GoString
  | .errorString text => text
  | .foreign _ text => text

/-- What the verb `%v` of package `fmt` prints for an operand of type `error`. -/
def fmtErrorV : Option GoError → GoString
  | none => ascii "<nil>"
  | some e => e.Error

end GoModel

/-! ## `golang.org/x/crypto/sha3`: legacy Keccak-256 -/

namespace sha3

/-- The 24 round constants of Keccak-f[1600]. -/
def RC : List Nat :=
  [0x1, 0x8082, 0x800000000000808a,
   0x8000000080008000, 0x808b, 0x80000001,
   0x8000000080008081, 0x8000000000008009, 0x8a,
   0x88, 0x80008009, 0x8000000a,
   0x8000808b, 0x800000000000008b, 0x8000000000008089,
   0x8000000000008003, 0x8000000000008002, 0x8000000000000080,
   0x800a, 0x800000008000000a, 0x8000000080008081,
   0x8000000000008080, 0x80000001, 0x8000000080008008]

/-- The rotation offsets of the step rho: row `y`, column `x`. -/
def rotc : List (List Nat) :=
  [[0, 1, 62, 28, 27],
   [36, 44, 6, 55, 20],
   [3, 10, 43, 25, 39],
   [41, 45, 15, 21, 8],
   [18, 2, 61, 56, 14]]

/-- The rotation offset of the lane `(x, y)`. -/
def rotOffset (x y : Nat) : Nat := (rotc.getD y []).getD x 0

/-- Rotation of a 64-bit word to the left. -/
def rotl64 (x n : Nat) : Nat := ((x <<< n) ||| (x >>> (64 - n))) % 2 ^ 64

/-- The lane `(x, y)` of a state of 25 lanes, coordinates taken modulo 5. -/
def lane (a : List Nat) (x y : Nat) : Nat := a.getD (x % 5 + 5 * (y % 5)) 0

/-- The step theta. -/
def theta (a : List Nat) : List Nat :=
  let c := (List.range 5).map fun x =>
    lane a x 0 ^^^ lane a x 1 ^^^ lane a x 2 ^^^ lane a x 3 ^^^ lane a x 4
  let d := (List.range 5).map fun x =>
    c.getD ((x + 4) % 5) 0 ^^^ rotl64 (c.getD ((x + 1) % 5) 0) 1
  (List.range 25).map fun i => a.getD i 0 ^^^ d.getD (i % 5) 0

/-- The steps rho and pi: the lane `(x, y)`, rotated, moves to `(y, 2x + 3y)`.
Computed by destination `(dx, dy)`, whose source is `((dx + 3 * dy) % 5, dx)`. -/
def rhoPi (a : List Nat) : List Nat :=
  (List.range 25).map fun j =>
    let dx := j % 5
    let dy := j / 5
    let x := (dx + 3 * dy) % 5
    let y := dx
    rotl64 (lane a x y) (rotOffset x y)

/-- The step chi. -/
def chi (b : List Nat) : List Nat :=
  (List.range 25).map fun i =>
    let x := i % 5
    let y := i / 5
    lane b x y ^^^ ((lane b (x + 1) y ^^^ (2 ^ 64 - 1)) &&& lane b (x + 2) y)

/-- The step iota of round `r`. -/
def iota (r : Nat) (a : List Nat) : List Nat :=
  match a with
  | [] => []
  | h :: t => (h ^^^ RC.getD r 0) :: t

/-- One round of Keccak-f[1600]. -/
def round (a : List Nat) (r : Nat) : List Nat := iota r (chi (rhoPi (theta a)))

/-- The permutation Keccak-f[1600]: 24 rounds. -/
def keccakF1600 (a : List Nat) : List Nat := (List.range 24).foldl round a

/-- The little-endian value of a sequence of bytes. -/
def leLane : List Nat → Nat
  | [] => 0
  | b :: bs => b + 256 * leLane bs

/-- The first `n` lanes of a block of bytes, 8 bytes each. -/
def lanesOf : Nat → List Nat → List Nat
  | 0, _ => []
  | n + 1, bs => leLane (bs.take 8) :: lanesOf n (bs.drop 8)

/-- Absorbs one block of 136 bytes (the rate of Keccak-256) into the state. -/
def absorbBlock (st : List Nat) (block : List Nat) : List Nat :=
  let ls := lanesOf 17 block
  keccakF1600 ((List.range 25).map fun i => st.getD i 0 ^^^ ls.getD i 0)

/-- The padding of legacy Keccak (domain byte `0x01`) to a multiple of the rate. -/
def pad (msg : List Nat) : List Nat :=
  let q := 136 - msg.length % 136
  if q = 1 then msg ++ [0x81]
  else msg ++ [0x01] ++ List.replicate (q - 2) 0 ++ [0x80]

/-- Cuts the first `n` blocks of 136 bytes. -/
def blocks : Nat → List Nat → List (List Nat)
  | 0, _ => []
  | n + 1, bs => bs.take 136 :: blocks n (bs.drop 136)

/-- The 8 bytes of a lane, little-endian. -/
def laneBytes (l : Nat) : List Nat := (List.range 8).map fun i => (l >>> (8 * i)) % 256

/-- The digest `sha3.NewLegacyKeccak256()` computes over `msg`: 32 bytes. -/
def legacyKeccak256 (msg : List Nat) : List Nat :=
  let p := pad msg
  let st := (blocks (p.length / 136) p).foldl absorbBlock (List.replicate 25 0)
  ((st.take 4).map laneBytes).flatten

end sha3

/-! ## `encoding/hex` -/

namespace hex

open GoModel

/-- The table `hextable`. -/
def hextable : List Byte := ascii "0123456789abcdef"

/-- `hex.EncodeToString`: two lower-case digits for each byte. -/
def EncodeToString (src : List Byte) : GoString :=
  src.flatMap fun v => [hextable.getD (v.val >>> 4) 0, hextable.getD (v.val &&& 0x0f) 0]

/-- `fromHexChar`: the value of a hex digit. -/
def fromHexChar (c : Byte) : Option Byte :=
  if 48 ≤ c.val ∧ c.val ≤ 57 then some (c - 48)
  else if 97 ≤ c.val ∧ c.val ≤ 102 then some (c - 97 + 10)
  else if 65 ≤ c.val ∧ c.val ≤ 70 then some (c - 65 + 10)
  else none

/-- The bytes `hex.DecodeString` returns next to its error: the pairs of digits
decoded up to the first byte that is not a hex digit; a trailing single byte is
not decoded. -/
def DecodeString : GoString → List Byte
  | p :: q :: rest =>
    match fromHexChar p, fromHexChar q with
    | some a, some b => ((a <<< 4) ||| b) :: DecodeString rest
    | _, _ => []
  | _ => []

end hex

/-! ## `github.com/ethereum/go-ethereum/common` -/

namespace common

open GoModel

/-- The constant `AddressLength`. -/
def AddressLength : Nat := 20

/-- The type `common.Address`, `[AddressLength]byte`. -/
abbrev Address := FixedBytes 20

/-- The zero value `common.Address{}`. -/
def Address.zero : Address := ⟨List.replicate 20 0, by simp⟩

/-- `has0xPrefix`: the string begins with `0x` or `0X`. -/
def has0xPrefix (str : GoString) : Bool :=
  decide (str.length ≥ 2) && str.getD 0 0 == 48 && (str.getD 1 0 == 120 || str.getD 1 0 == 88)

/-- `isHexCharacter`: `0`-`9`, `a`-`f` or `A`-`F`. -/
def isHexCharacter (c : Byte) : Bool :=
  (decide (48 ≤ c.val) && decide (c.val ≤ 57)) ||
  (decide (97 ≤ c.val) && decide (c.val ≤ 102)) ||
  (decide (65 ≤ c.val) && decide (c.val ≤ 70))

/-- `isHex`: an even number of bytes, each a hex digit. -/
def isHex (str : GoString) : Bool :=
  if str.length % 2 != 0 then false else str.all isHexCharacter

/-- `common.IsHexAddress`. -/
def IsHexAddress (s : GoString) : Bool :=
  let s := if has0xPrefix s then s.drop 2 else s
  s.length == 2 * AddressLength && isHex s

/-- `common.Hex2Bytes`: the error of `hex.DecodeString` is dropped. -/
def Hex2Bytes (str : GoString) : List Byte := hex.DecodeString str

/-- `common.FromHex`. -/
def FromHex (s : GoString) : List Byte :=
  let s := if has0xPrefix s then s.drop 2 else s
  let s := if s.length % 2 == 1 then (48 : Byte) :: s else s
  Hex2Bytes s

/-- `common.BytesToAddress` (`Address.SetBytes` on the zero address): the last 20
bytes of `b`, or `b` right-aligned in 20 zero bytes. -/
def BytesToAddress (b : List Byte) : Address :=
  if h : b.length > AddressLength then
    ⟨b.drop (b.length - AddressLength), by
      simp only [AddressLength] at h; simp only [List.length_drop, AddressLength]; omega⟩
  else
    ⟨List.replicate (AddressLength - b.length) 0 ++ b, by
      simp only [AddressLength] at h
      simp only [List.length_append, List.length_replicate, AddressLength]; omega⟩

/-- `common.HexToAddress`. -/
def HexToAddress (s : GoString) : Address := BytesToAddress (FromHex s)

/-- The loop body of `Address.Hex`: the digit at index `i` becomes upper-case when it
is a letter and the nibble `i` of the hash is above 7. -/
def checksumByte (hash : List Nat) (i : Nat) (c : Byte) : Byte :=
  let hashByte := hash.getD (i / 2) 0
  let hashByte := if i % 2 = 0 then hashByte >>> 4 else hashByte &&& 0xf
  if c.val > 57 ∧ hashByte > 7 then c - 32 else c

/-- The loop of `Address.Hex` over the digits from index `i` on. -/
def checksumFrom (hash : List Nat) : Nat → List Byte → List Byte
  | _, [] => []
  | i, c :: cs => checksumByte hash i c :: checksumFrom hash (i + 1) cs

/-- `Address.Hex`: the EIP-55 rendering of an address. -/
def Address.Hex (a : Address) : GoString :=
  let unchecksummed := hex.EncodeToString a.val
  let hash := sha3.legacyKeccak256 (unchecksummed.map Fin.val)
  let result := checksumFrom hash 0 unchecksummed
  ascii "0x" ++ result

end common

/-! ## Package `ethereum`: the collaborators -/

namespace ethereum

open GoModel common

/-- Modelled from the spec: the struct `EthereumChain`, the base chain handle, which is
declared in a file of the package that is not among the sources. The specification
names the resources it shares (signing key, client, nonce service, mining-wait service
and mutex); they are the five fields the gateway reads. Each holds a reference, which
is modelled by an identifier. -/
structure EthereumChain where
  accountKey : Nat
  client : Nat
  nonceManager : Nat
  miningWaiter : Nat
  transactionMutex : Nat
  deriving DecidableEq, Repr

/-- A contract handle the bindings return: what `*contract.TBTCSystem` points to. -/
structure TBTCSystem where
  id : Nat
  deriving DecidableEq, Repr

/-- A contract handle the bindings return: what `*contract.Deposit` points to. -/
structure Deposit where
  id : Nat
  deriving DecidableEq, Repr

/-- A submitted transaction, what `*types.Transaction` points to; the gateway calls
only its method `Hash()`. -/
structure Transaction where
  Hash : FixedBytes 32
  deriving DecidableEq

/-- A `subscription.EventSubscription`. -/
structure EventSubscription where
  id : Nat
  deriving DecidableEq, Repr

/-- A filter argument of a `Watch` method: a slice, `none` being `nil`. -/
abbrev Filter := Option (List (List Byte))

/-- A call to a collaborator, with the arguments the source passes. -/
inductive Call where
  | NewTBTCSystem (contractAddress : Address)
      (accountKey client nonceManager miningWaiter transactionMutex : Nat)
  | NewDeposit (contractAddress : Address)
      (accountKey client nonceManager miningWaiter transactionMutex : Nat)
  | KeepAddress (deposit : Option Deposit)
  | RetrieveSignerPubkey (deposit : Option Deposit)
  | ProvideRedemptionSignature (deposit : Option Deposit) (v : Byte) (r s : FixedBytes 32)
  | IncreaseRedemptionFee (deposit : Option Deposit)
      (previousOutputValueBytes newOutputValueBytes : FixedBytes 8)
  | Debugf (format : GoString) (hash : FixedBytes 32)
  | WatchCreated (tbtcSystemContract : Option TBTCSystem)
  | WatchRegisteredPubkey (tbtcSystemContract : Option TBTCSystem)
  | WatchRedemptionRequested (tbtcSystemContract : Option TBTCSystem)
  | WatchGotRedemptionSignature (tbtcSystemContract : Option TBTCSystem)
  | WatchRedeemed (tbtcSystemContract : Option TBTCSystem)
  deriving DecidableEq

/-- The state a run goes through: the state of the collaborators (ledger, network,
log output, whatever the handlers act on) and the calls made to them so far. -/
structure World (σ : Type) where
  st : σ
  trace : List Call

/-- How a call ends: it returns, or it panics on a nil pointer dereference. -/
inductive Outcome (α : Type) where
  | returned (a : α)
  | panicked
  deriving DecidableEq

/-- A handler `func(depositAddress string)`. -/
abbrev DepositHandler (σ : Type) := GoString → σ → σ

/-- The handler type of `OnDepositRedemptionRequested`. -/
abbrev RedemptionRequestedHandler (σ : Type) :=
  GoString → GoString → FixedBytes 32 → Option Int → List Byte → Option Int → List Byte →
    Nat → σ → σ

/-- The `fail` callback of a `Watch` method, `func(err error) error`. -/
abbrev FailCallback (σ : Type) := Option GoError → σ → Option GoError × σ

/-- The collaborators: package `contract` of the tBTC bindings and the logger. -/
structure Collaborators (σ : Type) where
  NewTBTCSystem : Address → Nat → Nat → Nat → Nat → Nat → σ →
    (Option TBTCSystem × Option GoError) × σ
  NewDeposit : Address → Nat → Nat → Nat → Nat → Nat → σ →
    (Option Deposit × Option GoError) × σ
  KeepAddress : Option Deposit → σ → (Address × Option GoError) × σ
  RetrieveSignerPubkey : Option Deposit → σ → (Option Transaction × Option GoError) × σ
  ProvideRedemptionSignature : Option Deposit → Byte → FixedBytes 32 → FixedBytes 32 → σ →
    (Option Transaction × Option GoError) × σ
  IncreaseRedemptionFee : Option Deposit → FixedBytes 8 → FixedBytes 8 → σ →
    (Option Transaction × Option GoError) × σ
  Debugf : GoString → FixedBytes 32 → σ → σ
  WatchCreated : Option TBTCSystem →
    (Address → Address → Option Int → Nat → σ → σ) → FailCallback σ →
    Filter → Filter → σ → (Option EventSubscription × Option GoError) × σ
  WatchRegisteredPubkey : Option TBTCSystem →
    (Address → FixedBytes 32 → FixedBytes 32 → Option Int → Nat → σ → σ) → FailCallback σ →
    Filter → σ → (Option EventSubscription × Option GoError) × σ
  WatchRedemptionRequested : Option TBTCSystem →
    (Address → Address → FixedBytes 32 → Option Int → List Byte → Option Int → List Byte →
      Nat → σ → σ) → FailCallback σ →
    Filter → Filter → Filter → σ → (Option EventSubscription × Option GoError) × σ
  WatchGotRedemptionSignature : Option TBTCSystem →
    (Address → FixedBytes 32 → FixedBytes 32 → FixedBytes 32 → Option Int → Nat → σ → σ) →
    FailCallback σ →
    Filter → Filter → σ → (Option EventSubscription × Option GoError) × σ
  WatchRedeemed : Option TBTCSystem →
    (Address → FixedBytes 32 → Option Int → Nat → σ → σ) → FailCallback σ →
    Filter → Filter → σ → (Option EventSubscription × Option GoError) × σ

/-! ## Package `ethereum`: `tbtc.go` -/

/-- The struct `TBTCEthereumChain`: the embedded pointer to the base chain handle and
the handle of the TBTCSystem contract. -/
structure TBTCEthereumChain where
  EthereumChain : Option EthereumChain
  tbtcSystemContract : Option TBTCSystem
  deriving DecidableEq

variable {σ : Type}

/-- `WithTBTCExtension`. -/
def WithTBTCExtension (env : Collaborators σ) (ethereumChain : Option EthereumChain)
    (tbtcSystemContractAddress : GoString) (w : World σ) :
    Outcome (Option TBTCEthereumChain × Option GoError) × World σ :=
  if !IsHexAddress tbtcSystemContractAddress then
    (.returned (none, some (.errorString (ascii "incorrect TBTCSystem contract address"))), w)
  else
    match ethereumChain with
    | none => (.panicked, w)
    | some c =>
      let r := env.NewTBTCSystem (HexToAddress tbtcSystemContractAddress)
        c.accountKey c.client c.nonceManager c.miningWaiter c.transactionMutex w.st
      let w1 : World σ :=
        { st := r.2,
          trace := w.trace ++ [.NewTBTCSystem (HexToAddress tbtcSystemContractAddress)
            c.accountKey c.client c.nonceManager c.miningWaiter c.transactionMutex] }
      match r.1.2 with
      | some err => (.returned (none, some err), w1)
      | none =>
        (.returned
          (some { EthereumChain := ethereumChain, tbtcSystemContract := r.1.1 }, none), w1)

/-- The `success` callback `OnDepositCreated` hands to `WatchCreated`. -/
def OnDepositCreated.success (handler : DepositHandler σ) :
    Address → Address → Option Int → Nat → σ → σ :=
  fun DepositContractAddress _KeepAddress _Timestamp _blockNumber =>
    handler DepositContractAddress.Hex

/-- The `fail` callback `OnDepositCreated` hands to `WatchCreated`. -/
def OnDepositCreated.fail (_handler : DepositHandler σ) : FailCallback σ :=
  fun err st =>
    (some (.errorString (ascii "watch deposit created failed: [" ++ fmtErrorV err ++ ascii "]")),
      st)

/-- `OnDepositCreated`. -/
def OnDepositCreated (env : Collaborators σ) (tec : Option TBTCEthereumChain)
    (handler : DepositHandler σ) (w : World σ) :
    Outcome (Option EventSubscription × Option GoError) × World σ :=
  match tec with
  | none => (.panicked, w)
  | some t =>
    let r := env.WatchCreated t.tbtcSystemContract
      (OnDepositCreated.success handler) (OnDepositCreated.fail handler) none none w.st
    (.returned r.1, { st := r.2, trace := w.trace ++ [.WatchCreated t.tbtcSystemContract] })

/-- The `success` callback `OnDepositRegisteredPubkey` hands to `WatchRegisteredPubkey`. -/
def OnDepositRegisteredPubkey.success (handler : DepositHandler σ) :
    Address → FixedBytes 32 → FixedBytes 32 → Option Int → Nat → σ → σ :=
  fun DepositContractAddress _SigningGroupPubkeyX _SigningGroupPubkeyY _Timestamp _blockNumber =>
    handler DepositContractAddress.Hex

/-- The `fail` callback `OnDepositRegisteredPubkey` hands to `WatchRegisteredPubkey`. -/
def OnDepositRegisteredPubkey.fail (_handler : DepositHandler σ) : FailCallback σ :=
  fun err st =>
    (some (.errorString
      (ascii "watch deposit registered pubkey failed: [" ++ fmtErrorV err ++ ascii "]")), st)

/-- `OnDepositRegisteredPubkey`. -/
def OnDepositRegisteredPubkey (env : Collaborators σ) (tec : Option TBTCEthereumChain)
    (handler : DepositHandler σ) (w : World σ) :
    Outcome (Option EventSubscription × Option GoError) × World σ :=
  match tec with
  | none => (.panicked, w)
  | some t =>
    let r := env.WatchRegisteredPubkey t.tbtcSystemContract
      (OnDepositRegisteredPubkey.success handler) (OnDepositRegisteredPubkey.fail handler)
      none w.st
    (.returned r.1,
      { st := r.2, trace := w.trace ++ [.WatchRegisteredPubkey t.tbtcSystemContract] })

/-- The `success` callback `OnDepositRedemptionRequested` hands to
`WatchRedemptionRequested`. -/
def OnDepositRedemptionRequested.success (handler : RedemptionRequestedHandler σ) :
    Address → Address → FixedBytes 32 → Option Int → List Byte → Option Int → List Byte →
      Nat → σ → σ :=
  fun DepositContractAddress Requester Digest UtxoValue RedeemerOutputScript RequestedFee
      Outpoint blockNumber =>
    handler
      DepositContractAddress.Hex
      Requester.Hex
      Digest
      UtxoValue
      RedeemerOutputScript
      RequestedFee
      Outpoint
      blockNumber

/-- The `fail` callback `OnDepositRedemptionRequested` hands to
`WatchRedemptionRequested`. -/
def OnDepositRedemptionRequested.fail (_handler : RedemptionRequestedHandler σ) :
    FailCallback σ :=
  fun err st =>
    (some (.errorString
      (ascii "watch deposit redemption requested failed: [" ++ fmtErrorV err ++ ascii "]")), st)

/-- `OnDepositRedemptionRequested`. -/
def OnDepositRedemptionRequested (env : Collaborators σ) (tec : Option TBTCEthereumChain)
    (handler : RedemptionRequestedHandler σ) (w : World σ) :
    Outcome (Option EventSubscription × Option GoError) × World σ :=
  match tec with
  | none => (.panicked, w)
  | some t =>
    let r := env.WatchRedemptionRequested t.tbtcSystemContract
      (OnDepositRedemptionRequested.success handler) (OnDepositRedemptionRequested.fail handler)
      none none none w.st
    (.returned r.1,
      { st := r.2, trace := w.trace ++ [.WatchRedemptionRequested t.tbtcSystemContract] })

/-- The `success` callback `OnDepositGotRedemptionSignature` hands to
`WatchGotRedemptionSignature`. -/
def OnDepositGotRedemptionSignature.success (handler : DepositHandler σ) :
    Address → FixedBytes 32 → FixedBytes 32 → FixedBytes 32 → Option Int → Nat → σ → σ :=
  fun DepositContractAddress _Digest _R _S _Timestamp _blockNumber =>
    handler DepositContractAddress.Hex

/-- The `fail` callback `OnDepositGotRedemptionSignature` hands to
`WatchGotRedemptionSignature`. -/
def OnDepositGotRedemptionSignature.fail (_handler : DepositHandler σ) : FailCallback σ :=
  fun err st =>
    (some (.errorString
      (ascii "watch deposit got redemption signature failed: [" ++ fmtErrorV err ++ ascii "]")),
      st)

/-- `OnDepositGotRedemptionSignature`. -/
def OnDepositGotRedemptionSignature (env : Collaborators σ) (tec : Option TBTCEthereumChain)
    (handler : DepositHandler σ) (w : World σ) :
    Outcome (Option EventSubscription × Option GoError) × World σ :=
  match tec with
  | none => (.panicked, w)
  | some t =>
    let r := env.WatchGotRedemptionSignature t.tbtcSystemContract
      (OnDepositGotRedemptionSignature.success handler)
      (OnDepositGotRedemptionSignature.fail handler) none none w.st
    (.returned r.1,
      { st := r.2, trace := w.trace ++ [.WatchGotRedemptionSignature t.tbtcSystemContract] })

/-- The `success` callback `OnDepositRedeemed` hands to `WatchRedeemed`. -/
def OnDepositRedeemed.success (handler : DepositHandler σ) :
    Address → FixedBytes 32 → Option Int → Nat → σ → σ :=
  fun DepositContractAddress _Txid _Timestamp _blockNumber =>
    handler DepositContractAddress.Hex

/-- The `fail` callback `OnDepositRedeemed` hands to `WatchRedeemed`. -/
def OnDepositRedeemed.fail (_handler : DepositHandler σ) : FailCallback σ :=
  fun err st =>
    (some (.errorString (ascii "watch deposit redeemed failed: [" ++ fmtErrorV err ++ ascii "]")),
      st)

/-- `OnDepositRedeemed`. -/
def OnDepositRedeemed (env : Collaborators σ) (tec : Option TBTCEthereumChain)
    (handler : DepositHandler σ) (w : World σ) :
    Outcome (Option EventSubscription × Option GoError) × World σ :=
  match tec with
  | none => (.panicked, w)
  | some t =>
    let r := env.WatchRedeemed t.tbtcSystemContract
      (OnDepositRedeemed.success handler) (OnDepositRedeemed.fail handler) none none w.st
    (.returned r.1, { st := r.2, trace := w.trace ++ [.WatchRedeemed t.tbtcSystemContract] })

/-- `getDepositContract`. -/
def getDepositContract (env : Collaborators σ) (tec : Option TBTCEthereumChain)
    (address : GoString) (w : World σ) :
    Outcome (Option Deposit × Option GoError) × World σ :=
  if !IsHexAddress address then
    (.returned (none, some (.errorString (ascii "incorrect deposit contract address"))), w)
  else
    match tec.bind (fun t => t.EthereumChain) with
    | none => (.panicked, w)
    | some c =>
      let r := env.NewDeposit (HexToAddress address)
        c.accountKey c.client c.nonceManager c.miningWaiter c.transactionMutex w.st
      let w1 : World σ :=
        { st := r.2,
          trace := w.trace ++ [.NewDeposit (HexToAddress address)
            c.accountKey c.client c.nonceManager c.miningWaiter c.transactionMutex] }
      match r.1.2 with
      | some err => (.returned (none, some err), w1)
      | none => (.returned (r.1.1, none), w1)

/-- `KeepAddress`. -/
def KeepAddress (env : Collaborators σ) (tec : Option TBTCEthereumChain)
    (depositAddress : GoString) (w : World σ) : Outcome (GoString × Option GoError) × World σ :=
  match getDepositContract env tec depositAddress w with
  | (.panicked, w1) => (.panicked, w1)
  | (.returned (_, some err), w1) => (.returned ([], some err), w1)
  | (.returned (deposit, none), w1) =>
    let r := env.KeepAddress deposit w1.st
    let w2 : World σ := { st := r.2, trace := w1.trace ++ [.KeepAddress deposit] }
    match r.1.2 with
    | some err => (.returned ([], some err), w2)
    | none => (.returned (r.1.1.Hex, none), w2)

/-- `RetrieveSignerPubkey`. -/
def RetrieveSignerPubkey (env : Collaborators σ) (tec : Option TBTCEthereumChain)
    (depositAddress : GoString) (w : World σ) : Outcome (Option GoError) × World σ :=
  match getDepositContract env tec depositAddress w with
  | (.panicked, w1) => (.panicked, w1)
  | (.returned (_, some err), w1) => (.returned (some err), w1)
  | (.returned (deposit, none), w1) =>
    let r := env.RetrieveSignerPubkey deposit w1.st
    let w2 : World σ := { st := r.2, trace := w1.trace ++ [.RetrieveSignerPubkey deposit] }
    match r.1.2 with
    | some err => (.returned (some err), w2)
    | none =>
      match r.1.1 with
      | none => (.panicked, w2)
      | some transaction =>
        (.returned none,
          { st := env.Debugf
              (ascii "submitted RetrieveSignerPubkey transaction with hash: [%x]")
              transaction.Hash w2.st,
            trace := w2.trace ++
              [.Debugf (ascii "submitted RetrieveSignerPubkey transaction with hash: [%x]")
                transaction.Hash] })

/-- `ProvideRedemptionSignature`. -/
def ProvideRedemptionSignature (env : Collaborators σ) (tec : Option TBTCEthereumChain)
    (depositAddress : GoString) (v : Byte) (r s : FixedBytes 32) (w : World σ) :
    Outcome (Option GoError) × World σ :=
  match getDepositContract env tec depositAddress w with
  | (.panicked, w1) => (.panicked, w1)
  | (.returned (_, some err), w1) => (.returned (some err), w1)
  | (.returned (deposit, none), w1) =>
    let res := env.ProvideRedemptionSignature deposit v r s w1.st
    let w2 : World σ :=
      { st := res.2, trace := w1.trace ++ [.ProvideRedemptionSignature deposit v r s] }
    match res.1.2 with
    | some err => (.returned (some err), w2)
    | none =>
      match res.1.1 with
      | none => (.panicked, w2)
      | some transaction =>
        (.returned none,
          { st := env.Debugf
              (ascii "submitted ProvideRedemptionSignature transaction with hash: [%x]")
              transaction.Hash w2.st,
            trace := w2.trace ++
              [.Debugf (ascii "submitted ProvideRedemptionSignature transaction with hash: [%x]")
                transaction.Hash] })

/-- `IncreaseRedemptionFee`. -/
def IncreaseRedemptionFee (env : Collaborators σ) (tec : Option TBTCEthereumChain)
    (depositAddress : GoString) (previousOutputValueBytes newOutputValueBytes : FixedBytes 8)
    (w : World σ) : Outcome (Option GoError) × World σ :=
  match getDepositContract env tec depositAddress w with
  | (.panicked, w1) => (.panicked, w1)
  | (.returned (_, some err), w1) => (.returned (some err), w1)
  | (.returned (deposit, none), w1) =>
    let r := env.IncreaseRedemptionFee deposit previousOutputValueBytes newOutputValueBytes w1.st
    let w2 : World σ :=
      { st := r.2,
        trace := w1.trace ++
          [.IncreaseRedemptionFee deposit previousOutputValueBytes newOutputValueBytes] }
    match r.1.2 with
    | some err => (.returned (some err), w2)
    | none =>
      match r.1.1 with
      | none => (.panicked, w2)
      | some transaction =>
        (.returned none,
          { st := env.Debugf
              (ascii "submitted IncreaseRedemptionFee transaction with hash: [%x]")
              transaction.Hash w2.st,
            trace := w2.trace ++
              [.Debugf (ascii "submitted IncreaseRedemptionFee transaction with hash: [%x]")
                transaction.Hash] })

/-! ## Package `ethereum` of `pkg/chain/eth`: `config.go` -/

/-- The constant `KeepTECDSAGroupContractName`. -/
def KeepTECDSAGroupContractName : GoString := ascii "KeepTECDSAGroup"

/-- The struct `Config`. The map `ContractAddresses` is its lookup function; a key
that is absent (every key, for a nil map) gives `none`. -/
structure Config where
  URL : GoString
  ContractAddresses : GoString → Option GoString

/-- `Config.ContractAddress`. The receiver is dereferenced by the first statement. -/
def Config.ContractAddress (c : Option Config) (contractName : GoString) :
    Outcome (Address × Option GoError) :=
  match c with
  | none => .panicked
  | some c =>
    match c.ContractAddresses contractName with
    | none =>
      .returned (Address.zero, some (.errorString
        (ascii "configuration for contract [" ++ contractName ++ ascii "] not found")))
    | some contractAddress =>
      if !IsHexAddress contractAddress then
        .returned (Address.zero, some (.errorString
          (ascii "configured address [" ++ contractAddress ++ ascii "] for contract [" ++
            contractName ++ ascii "] is not valid hex address")))
      else
        .returned (HexToAddress contractAddress, none)

end ethereum

/-! ## The words of the specification -/

namespace Spec

open GoModel

/-- A hex digit: one of `0`-`9`, `a`-`f`, `A`-`F`. -/
def IsHexDigit (c : Byte) : Prop := c ∈ ascii "0123456789abcdefABCDEF"

instance (c : Byte) : Decidable (IsHexDigit c) :=
  inferInstanceAs (Decidable (c ∈ ascii "0123456789abcdefABCDEF"))

/-- A syntactically valid hex address: an optional `0x` or `0X` prefix followed by
exactly 40 hex digits. -/
def ValidHexAddress (s : GoString) : Prop :=
  (s.length = 40 ∧ ∀ c ∈ s, IsHexDigit c) ∨
  (s.length = 42 ∧ (s.take 2 = ascii "0x" ∨ s.take 2 = ascii "0X") ∧
    ∀ c ∈ s.drop 2, IsHexDigit c)

instance (s : GoString) : Decidable (ValidHexAddress s) :=
  inferInstanceAs (Decidable ((s.length = 40 ∧ ∀ c ∈ s, IsHexDigit c) ∨
    (s.length = 42 ∧ (s.take 2 = ascii "0x" ∨ s.take 2 = ascii "0X") ∧
      ∀ c ∈ s.drop 2, IsHexDigit c)))

/-- The lower-case form of an ASCII letter; every other byte is left as it is. -/
def toLower (c : Byte) : Byte := if 65 ≤ c.val ∧ c.val ≤ 90 then c + 32 else c

/-- The canonical lower-case rendering of an address: `0x` and two lower-case hex
digits for each of the 20 bytes, the high nibble first. -/
def lowerHex (a : common.Address) : GoString :=
  ascii "0x" ++ a.val.flatMap fun b =>
    [(ascii "0123456789abcdef").getD (b.val / 16) 0, (ascii "0123456789abcdef").getD (b.val % 16) 0]

/-- The 40 digits of a valid hex address: the string without its optional prefix. -/
def digits (s : GoString) : GoString := if s.length = 42 then s.drop 2 else s

end Spec

/-! ## Clients of the gateway, and concrete collaborators -/

namespace ethereum

open GoModel common

variable {σ : Type}

/-- One call of a public operation of the gateway, with its arguments. -/
inductive Op (σ : Type) where
  | OnDepositCreated (handler : DepositHandler σ)
  | OnDepositRegisteredPubkey (handler : DepositHandler σ)
  | OnDepositRedemptionRequested (handler : RedemptionRequestedHandler σ)
  | OnDepositGotRedemptionSignature (handler : DepositHandler σ)
  | OnDepositRedeemed (handler : DepositHandler σ)
  | KeepAddress (depositAddress : GoString)
  | RetrieveSignerPubkey (depositAddress : GoString)
  | ProvideRedemptionSignature (depositAddress : GoString) (v : Byte) (r s : FixedBytes 32)
  | IncreaseRedemptionFee (depositAddress : GoString)
      (previousOutputValueBytes newOutputValueBytes : FixedBytes 8)

/-- The world after a client has called one operation on the gateway `tec` (the client
goes on after a panic). -/
def Op.run (env : Collaborators σ) (tec : Option TBTCEthereumChain) :
    Op σ → World σ → World σ
  | .OnDepositCreated handler, w => (ethereum.OnDepositCreated env tec handler w).2
  | .OnDepositRegisteredPubkey handler, w =>
    (ethereum.OnDepositRegisteredPubkey env tec handler w).2
  | .OnDepositRedemptionRequested handler, w =>
    (ethereum.OnDepositRedemptionRequested env tec handler w).2
  | .OnDepositGotRedemptionSignature handler, w =>
    (ethereum.OnDepositGotRedemptionSignature env tec handler w).2
  | .OnDepositRedeemed handler, w => (ethereum.OnDepositRedeemed env tec handler w).2
  | .KeepAddress depositAddress, w => (ethereum.KeepAddress env tec depositAddress w).2
  | .RetrieveSignerPubkey depositAddress, w =>
    (ethereum.RetrieveSignerPubkey env tec depositAddress w).2
  | .ProvideRedemptionSignature depositAddress v r s, w =>
    (ethereum.ProvideRedemptionSignature env tec depositAddress v r s w).2
  | .IncreaseRedemptionFee depositAddress previousOutputValueBytes newOutputValueBytes, w =>
    (ethereum.IncreaseRedemptionFee env tec depositAddress previousOutputValueBytes
      newOutputValueBytes w).2

/-- The world after a client has called the operations `ops` on the gateway, in order. -/
def runOps (env : Collaborators σ) (tec : Option TBTCEthereumChain) (ops : List (Op σ))
    (w : World σ) : World σ :=
  ops.foldl (fun w op => op.run env tec w) w

/-- One of the three mutating deposit operations, with its arguments after the address. -/
inductive Mutation where
  | RetrieveSignerPubkey
  | ProvideRedemptionSignature (v : Byte) (r s : FixedBytes 32)
  | IncreaseRedemptionFee (previousOutputValueBytes newOutputValueBytes : FixedBytes 8)

/-- The operation of the gateway that a `Mutation` names. -/
def Mutation.run (env : Collaborators σ) (tec : Option TBTCEthereumChain)
    (depositAddress : GoString) : Mutation → World σ → Outcome (Option GoError) × World σ
  | .RetrieveSignerPubkey => ethereum.RetrieveSignerPubkey env tec depositAddress
  | .ProvideRedemptionSignature v r s =>
    ethereum.ProvideRedemptionSignature env tec depositAddress v r s
  | .IncreaseRedemptionFee previousOutputValueBytes newOutputValueBytes =>
    ethereum.IncreaseRedemptionFee env tec depositAddress previousOutputValueBytes
      newOutputValueBytes

/-- The method of the deposit handle that the operation delegates to. -/
def Mutation.submit (env : Collaborators σ) (deposit : Option Deposit) :
    Mutation → σ → (Option Transaction × Option GoError) × σ
  | .RetrieveSignerPubkey => env.RetrieveSignerPubkey deposit
  | .ProvideRedemptionSignature v r s => env.ProvideRedemptionSignature deposit v r s
  | .IncreaseRedemptionFee previousOutputValueBytes newOutputValueBytes =>
    env.IncreaseRedemptionFee deposit previousOutputValueBytes newOutputValueBytes

/-- The trace entry of that delegated call. -/
def Mutation.call (deposit : Option Deposit) : Mutation → Call
  | .RetrieveSignerPubkey => .RetrieveSignerPubkey deposit
  | .ProvideRedemptionSignature v r s => .ProvideRedemptionSignature deposit v r s
  | .IncreaseRedemptionFee previousOutputValueBytes newOutputValueBytes =>
    .IncreaseRedemptionFee deposit previousOutputValueBytes newOutputValueBytes

/-- The format of the debug message the operation logs after a submission. -/
def Mutation.format : Mutation → GoString
  | .RetrieveSignerPubkey => ascii "submitted RetrieveSignerPubkey transaction with hash: [%x]"
  | .ProvideRedemptionSignature _ _ _ =>
    ascii "submitted ProvideRedemptionSignature transaction with hash: [%x]"
  | .IncreaseRedemptionFee _ _ =>
    ascii "submitted IncreaseRedemptionFee transaction with hash: [%x]"

/-- A call that builds a contract handle is made with the five resources of the base
chain handle `c`, and a call that opens a watch is made on the handle `h`. -/
def Call.SharesResources (c : EthereumChain) (h : Option TBTCSystem) : Call → Prop
  | .NewTBTCSystem _ accountKey client nonceManager miningWaiter transactionMutex =>
    accountKey = c.accountKey ∧ client = c.client ∧ nonceManager = c.nonceManager ∧
      miningWaiter = c.miningWaiter ∧ transactionMutex = c.transactionMutex
  | .NewDeposit _ accountKey client nonceManager miningWaiter transactionMutex =>
    accountKey = c.accountKey ∧ client = c.client ∧ nonceManager = c.nonceManager ∧
      miningWaiter = c.miningWaiter ∧ transactionMutex = c.transactionMutex
  | .WatchCreated h1 => h1 = h
  | .WatchRegisteredPubkey h1 => h1 = h
  | .WatchRedemptionRequested h1 => h1 = h
  | .WatchGotRedemptionSignature h1 => h1 = h
  | .WatchRedeemed h1 => h1 = h
  | _ => True

/-- A call that submits a transaction. -/
def Call.isSubmission : Call → Bool
  | .RetrieveSignerPubkey _ => true
  | .ProvideRedemptionSignature _ _ _ _ => true
  | .IncreaseRedemptionFee _ _ _ => true
  | _ => false

/-- A handler that appends the address it is invoked with to a log of invocations. -/
def recordDeposit : DepositHandler (List GoString) :=
  fun depositAddress log => log ++ [depositAddress]

/-- The arguments of one invocation of a handler of redemption requests. -/
abbrev RedemptionRequest :=
  GoString × GoString × FixedBytes 32 × Option Int × List Byte × Option Int × List Byte × Nat

/-- A handler that appends the arguments it is invoked with to a log of invocations. -/
def recordRedemptionRequest : RedemptionRequestedHandler (List RedemptionRequest) :=
  fun depositAddress requesterAddress digest utxoValue redeemerOutputScript requestedFee
      outpoint blockNumber log =>
    log ++ [(depositAddress, requesterAddress, digest, utxoValue, redeemerOutputScript,
      requestedFee, outpoint, blockNumber)]

end ethereum

/-! ## Concrete inputs: a simulated ledger whose state counts the calls it has served -/

namespace Demo

open GoModel common ethereum

/-- A byte array of `n` bytes, all equal to `b`. -/
def fill (n : Nat) (b : Byte) : FixedBytes n := ⟨List.replicate n b, by simp⟩

/-- The bindings of a simulated ledger. Building a handle fails for the zero address;
a submission returns `submitted`. -/
def env (submitted : Option Transaction × Option GoError) : Collaborators Nat where
  NewTBTCSystem := fun a _ _ _ _ _ st =>
    if a = Address.zero then ((none, some (.foreign 1 (ascii "no contract code"))), st + 1)
    else ((some ⟨st⟩, none), st + 1)
  NewDeposit := fun a _ _ _ _ _ st =>
    if a = Address.zero then ((none, some (.foreign 1 (ascii "no contract code"))), st + 1)
    else ((some ⟨st⟩, none), st + 1)
  KeepAddress := fun _ st => ((fill 20 0xab, none), st + 1)
  RetrieveSignerPubkey := fun _ st => (submitted, st + 1)
  ProvideRedemptionSignature := fun _ _ _ _ st => (submitted, st + 1)
  IncreaseRedemptionFee := fun _ _ _ st => (submitted, st + 1)
  Debugf := fun _ _ st => st + 1
  WatchCreated := fun _ _ _ _ _ st => ((some ⟨st⟩, none), st + 1)
  WatchRegisteredPubkey := fun _ _ _ _ st => ((some ⟨st⟩, none), st + 1)
  WatchRedemptionRequested := fun _ _ _ _ _ _ st => ((some ⟨st⟩, none), st + 1)
  WatchGotRedemptionSignature := fun _ _ _ _ _ st => ((some ⟨st⟩, none), st + 1)
  WatchRedeemed := fun _ _ _ _ _ st => ((some ⟨st⟩, none), st + 1)

/-- A base chain handle. -/
def chain : EthereumChain :=
  { accountKey := 1, client := 2, nonceManager := 3, miningWaiter := 4, transactionMutex := 5 }

/-- A gateway over `chain`. -/
def gateway : TBTCEthereumChain :=
  { EthereumChain := some chain, tbtcSystemContract := some ⟨0⟩ }

/-- The world before any call. -/
def world : World Nat := { st := 0, trace := [] }

/-- A well-formed address in mixed case (a test vector of EIP-55). -/
def address : GoString := ascii "0x5aAeb6053F3E94C9b9A09f33669435E7Ef1BeAed"

/-- A string that is not a hex address. -/
def malformed : GoString := ascii "0x5aAeb6053F3E94C9b9A09f33669435E7Ef1BeAe"

/-- The well-formed address of 40 zero digits, for which the simulated ledger has no
contract. -/
def unknown : GoString := ascii "0x0000000000000000000000000000000000000000"

/-- The error of a failed submission. -/
def rejected : GoError := .foreign 7 (ascii "nonce too low")

/-- A configuration with one well-formed entry and one malformed entry. -/
def config : Config :=
  { URL := ascii "ws://localhost:8546",
    ContractAddresses := fun name =>
      if name = ascii "TBTCSystem" then some address
      else if name = KeepTECDSAGroupContractName then some malformed
      else none }

/-- Collaborators that serve every call with nil results and leave the state as it is. -/
def idle (σ : Type) : Collaborators σ where
  NewTBTCSystem := fun _ _ _ _ _ _ st => ((none, none), st)
  NewDeposit := fun _ _ _ _ _ _ st => ((none, none), st)
  KeepAddress := fun _ st => ((Address.zero, none), st)
  RetrieveSignerPubkey := fun _ st => ((none, none), st)
  ProvideRedemptionSignature := fun _ _ _ _ st => ((none, none), st)
  IncreaseRedemptionFee := fun _ _ _ st => ((none, none), st)
  Debugf := fun _ _ st => st
  WatchCreated := fun _ _ _ _ _ st => ((none, none), st)
  WatchRegisteredPubkey := fun _ _ _ _ st => ((none, none), st)
  WatchRedemptionRequested := fun _ _ _ _ _ _ st => ((none, none), st)
  WatchGotRedemptionSignature := fun _ _ _ _ _ st => ((none, none), st)
  WatchRedeemed := fun _ _ _ _ _ st => ((none, none), st)

/-- A feed that delivers one RedemptionRequested log to the `success` callback when the
watch is opened. -/
def redemptionFeed (σ : Type) (DepositContractAddress Requester : Address)
    (Digest : FixedBytes 32) (UtxoValue : Option Int) (RedeemerOutputScript : List Byte)
    (RequestedFee : Option Int) (Outpoint : List Byte) (blockNumber : Nat) :
    Collaborators σ :=
  { idle σ with
    WatchRedemptionRequested := fun _ success _ _ _ _ st =>
      ((some ⟨0⟩, none),
        success DepositContractAddress Requester Digest UtxoValue RedeemerOutputScript
          RequestedFee Outpoint blockNumber st) }

/-- A feed that delivers one DepositCreated log to the `success` callback when the watch
is opened. -/
def createdFeed (σ : Type) (DepositContractAddress KeepAddress : Address)
    (Timestamp : Option Int) (blockNumber : Nat) : Collaborators σ :=
  { idle σ with
    WatchCreated := fun _ success _ _ _ st =>
      ((some ⟨0⟩, none), success DepositContractAddress KeepAddress Timestamp blockNumber st) }

/-- A feed that delivers one RegisteredPubkey log to the `success` callback when the
watch is opened. -/
def registeredPubkeyFeed (σ : Type) (DepositContractAddress : Address)
    (SigningGroupPubkeyX SigningGroupPubkeyY : FixedBytes 32) (Timestamp : Option Int)
    (blockNumber : Nat) : Collaborators σ :=
  { idle σ with
    WatchRegisteredPubkey := fun _ success _ _ st =>
      ((some ⟨0⟩, none),
        success DepositContractAddress SigningGroupPubkeyX SigningGroupPubkeyY Timestamp
          blockNumber st) }

/-- A feed that delivers one GotRedemptionSignature log to the `success` callback when
the watch is opened. -/
def gotRedemptionSignatureFeed (σ : Type) (DepositContractAddress : Address)
    (Digest R S : FixedBytes 32) (Timestamp : Option Int) (blockNumber : Nat) :
    Collaborators σ :=
  { idle σ with
    WatchGotRedemptionSignature := fun _ success _ _ _ st =>
      ((some ⟨0⟩, none), success DepositContractAddress Digest R S Timestamp blockNumber st) }

/-- A feed that delivers one Redeemed log to the `success` callback when the watch is
opened. -/
def redeemedFeed (σ : Type) (DepositContractAddress : Address) (Txid : FixedBytes 32)
    (Timestamp : Option Int) (blockNumber : Nat) : Collaborators σ :=
  { idle σ with
    WatchRedeemed := fun _ success _ _ _ st =>
      ((some ⟨0⟩, none), success DepositContractAddress Txid Timestamp blockNumber st) }

/-- A feed that fails when a watch is opened: it reports `err` to the `fail` callback
and returns what the callback returned. -/
def failingFeed (σ : Type) (err : GoError) : Collaborators σ :=
  { idle σ with
    WatchCreated := fun _ _ fail _ _ st =>
      ((none, (fail (some err) st).1), (fail (some err) st).2)
    WatchRegisteredPubkey := fun _ _ fail _ st =>
      ((none, (fail (some err) st).1), (fail (some err) st).2)
    WatchRedemptionRequested := fun _ _ fail _ _ _ st =>
      ((none, (fail (some err) st).1), (fail (some err) st).2)
    WatchGotRedemptionSignature := fun _ _ fail _ _ st =>
      ((none, (fail (some err) st).1), (fail (some err) st).2)
    WatchRedeemed := fun _ _ fail _ _ st =>
      ((none, (fail (some err) st).1), (fail (some err) st).2) }

end Demo

/-! ## Lemmas on the library functions -/

namespace common

open GoModel

theorem isHexCharacter_iff (c : Byte) : isHexCharacter c = true ↔ Spec.IsHexDigit c := by
  revert c
  decide!

theorem ascii_0x : ascii "0x" = [48, 120] := by decide

theorem ascii_0X : ascii "0X" = [48, 88] := by decide

theorem all_isHexCharacter_iff (l : GoString) :
    l.all isHexCharacter = true ↔ ∀ c ∈ l, Spec.IsHexDigit c := by
  simp [List.all_eq_true, isHexCharacter_iff]

theorem isHex_iff (l : GoString) (h : l.length % 2 = 0) :
    isHex l = true ↔ ∀ c ∈ l, Spec.IsHexDigit c := by
  rw [← all_isHexCharacter_iff]
  simp [isHex, h]

theorem not_isHexDigit_x : ¬ Spec.IsHexDigit 120 ∧ ¬ Spec.IsHexDigit 88 := by decide

theorem IsHexAddress_iff (s : GoString) : IsHexAddress s = true ↔ Spec.ValidHexAddress s := by
  match s with
  | [] => simp [IsHexAddress, has0xPrefix, Spec.ValidHexAddress, AddressLength]
  | [a] => simp [IsHexAddress, has0xPrefix, Spec.ValidHexAddress, AddressLength]
  | a :: b :: rest =>
    by_cases hp : has0xPrefix (a :: b :: rest) = true
    · have hab : a = 48 ∧ (b = 120 ∨ b = 88) := by
        simpa [has0xPrefix] using hp
      have hb : ¬ Spec.IsHexDigit b := by
        rcases hab.2 with h | h <;> subst h
        · exact not_isHexDigit_x.1
        · exact not_isHexDigit_x.2
      simp only [IsHexAddress, hp, if_true, List.drop_succ_cons, List.drop_zero,
        Spec.ValidHexAddress, List.take_succ_cons, List.take_zero, ascii_0x, ascii_0X,
        AddressLength, Bool.and_eq_true, beq_iff_eq, List.length_cons]
      constructor
      · rintro ⟨hl, hx⟩
        right
        refine ⟨by omega, ?_, (isHex_iff rest (by omega)).1 hx⟩
        rcases hab with ⟨rfl, rfl | rfl⟩ <;> simp
      · rintro (⟨_, hd⟩ | ⟨hl, _, hd⟩)
        · exact absurd (hd b (by simp)) hb
        · exact ⟨by omega, (isHex_iff rest (by omega)).2 hd⟩
    · have hp2 : has0xPrefix (a :: b :: rest) = false := by simpa using hp
      have hab : ¬ (a = 48 ∧ (b = 120 ∨ b = 88)) := by
        simpa [has0xPrefix] using hp
      simp only [IsHexAddress, hp2, Spec.ValidHexAddress, List.take_succ_cons, List.take_zero,
        ascii_0x, ascii_0X, AddressLength, Bool.and_eq_true, beq_iff_eq, List.length_cons,
        List.drop_succ_cons, List.drop_zero, Bool.false_eq_true, if_false]
      constructor
      · rintro ⟨hl, hx⟩
        left
        exact ⟨by omega, (isHex_iff _ (by simp only [List.length_cons]; omega)).1 hx⟩
      · rintro (⟨hl, hd⟩ | ⟨_, hpre, _⟩)
        · exact ⟨by omega, (isHex_iff _ (by simp only [List.length_cons]; omega)).2 hd⟩
        · exfalso
          apply hab
          rcases hpre with h | h <;> simp only [List.cons.injEq, and_true] at h <;> simp [h]

theorem toLower_ascii_0x : (ascii "0x").map Spec.toLower = ascii "0x" := by decide

theorem toLower_checksum (c : Byte) (hc : c ∈ hex.hextable) :
    Spec.toLower c = c ∧ (c.val > 57 → Spec.toLower (c - 32) = c) := by
  revert c
  decide!

theorem toLower_checksumByte (hash : List Nat) (i : Nat) (c : Byte) (hc : c ∈ hex.hextable) :
    Spec.toLower (checksumByte hash i c) = c := by
  unfold checksumByte
  by_cases h : c.val > 57 ∧
      (if i % 2 = 0 then hash.getD (i / 2) 0 >>> 4 else hash.getD (i / 2) 0 &&& 0xf) > 7
  · simp only [h, and_self, if_true]
    exact (toLower_checksum c hc).2 h.1
  · simp only [h, if_false]
    exact (toLower_checksum c hc).1

theorem toLower_checksumFrom (hash : List Nat) (l : List Byte) :
    ∀ i, (∀ c ∈ l, c ∈ hex.hextable) → (checksumFrom hash i l).map Spec.toLower = l := by
  induction l with
  | nil => intro i _; rfl
  | cons c cs ih =>
    intro i h
    simp only [checksumFrom, List.map_cons]
    rw [toLower_checksumByte hash i c (h c (by simp)), ih (i + 1) (fun x hx => h x (by simp [hx]))]

theorem length_checksumFrom (hash : List Nat) (l : List Byte) :
    ∀ i, (checksumFrom hash i l).length = l.length := by
  induction l with
  | nil => intro i; rfl
  | cons c cs ih => intro i; simp [checksumFrom, ih]

theorem encode_digits (v : Byte) :
    (hex.hextable.getD (v.val >>> 4) 0 ∈ hex.hextable ∧
      hex.hextable.getD (v.val &&& 0x0f) 0 ∈ hex.hextable) ∧
    hex.hextable.getD (v.val >>> 4) 0 = (ascii "0123456789abcdef").getD (v.val / 16) 0 ∧
    hex.hextable.getD (v.val &&& 0x0f) 0 = (ascii "0123456789abcdef").getD (v.val % 16) 0 := by
  revert v
  decide!

theorem EncodeToString_mem (l : List Byte) : ∀ c ∈ hex.EncodeToString l, c ∈ hex.hextable := by
  intro c hc
  simp only [hex.EncodeToString, List.mem_flatMap] at hc
  obtain ⟨v, _, hv⟩ := hc
  simp only [List.mem_cons, List.mem_singleton, List.not_mem_nil, or_false] at hv
  rcases hv with h | h
  · rw [h]; exact (encode_digits v).1.1
  · rw [h]; exact (encode_digits v).1.2

theorem EncodeToString_eq (l : List Byte) :
    hex.EncodeToString l = l.flatMap fun b =>
      [(ascii "0123456789abcdef").getD (b.val / 16) 0,
        (ascii "0123456789abcdef").getD (b.val % 16) 0] := by
  induction l with
  | nil => rfl
  | cons v vs ih =>
    simp only [hex.EncodeToString, List.flatMap_cons] at ih ⊢
    rw [ih, (encode_digits v).2.1, (encode_digits v).2.2]

theorem length_EncodeToString (l : List Byte) : (hex.EncodeToString l).length = 2 * l.length := by
  induction l with
  | nil => rfl
  | cons v vs ih =>
    simp only [hex.EncodeToString, List.flatMap_cons, List.length_append, List.length_cons,
      List.length_nil] at ih ⊢
    omega

theorem Hex_toLower (a : Address) : a.Hex.map Spec.toLower = Spec.lowerHex a := by
  simp only [Address.Hex, List.map_append, toLower_ascii_0x, Spec.lowerHex]
  rw [toLower_checksumFrom _ _ 0 (EncodeToString_mem a.val), EncodeToString_eq]

theorem Hex_length (a : Address) : a.Hex.length = 42 := by
  simp only [Address.Hex, List.length_append, length_checksumFrom, length_EncodeToString, a.2]
  rfl

theorem Hex_take (a : Address) : a.Hex.take 2 = ascii "0x" := by
  simp only [Address.Hex, ascii_0x]
  rfl

theorem fromHexChar_digit (p : Byte) (hp : Spec.IsHexDigit p) :
    (hex.fromHexChar p).map (fun a => (decide (a.val < 16),
      (ascii "0123456789abcdef").getD a.val 0)) = some (true, Spec.toLower p) := by
  revert p
  decide!

theorem nibbles_of_pair (a b : Fin 16) :
    (((⟨a.val, by omega⟩ : Byte) <<< 4) ||| (⟨b.val, by omega⟩ : Byte)).val / 16 = a.val ∧
    (((⟨a.val, by omega⟩ : Byte) <<< 4) ||| (⟨b.val, by omega⟩ : Byte)).val % 16 = b.val := by
  revert a b
  decide!

theorem decode_pair (p q : Byte) (hp : Spec.IsHexDigit p) (hq : Spec.IsHexDigit q) :
    ∃ a b, hex.fromHexChar p = some a ∧ hex.fromHexChar q = some b ∧
      (ascii "0123456789abcdef").getD (((a <<< 4) ||| b).val / 16) 0 = Spec.toLower p ∧
      (ascii "0123456789abcdef").getD (((a <<< 4) ||| b).val % 16) 0 = Spec.toLower q := by
  have h1 := fromHexChar_digit p hp
  have h2 := fromHexChar_digit q hq
  cases ha : hex.fromHexChar p with
  | none => rw [ha] at h1; simp at h1
  | some a =>
    cases hb : hex.fromHexChar q with
    | none => rw [hb] at h2; simp at h2
    | some b =>
      rw [ha] at h1
      rw [hb] at h2
      simp only [Option.map_some', Option.some.injEq, Prod.mk.injEq, decide_eq_true_eq] at h1 h2
      have hn := nibbles_of_pair ⟨a.val, h1.1⟩ ⟨b.val, h2.1⟩
      simp only [Fin.eta] at hn
      refine ⟨a, b, rfl, rfl, ?_, ?_⟩
      · rw [hn.1]; exact h1.2
      · rw [hn.2]; exact h2.2

theorem DecodeString_digits (n : Nat) :
    ∀ l : GoString, l.length = 2 * n → (∀ c ∈ l, Spec.IsHexDigit c) →
      (hex.DecodeString l).length = n ∧
      (hex.DecodeString l).flatMap (fun b =>
        [(ascii "0123456789abcdef").getD (b.val / 16) 0,
          (ascii "0123456789abcdef").getD (b.val % 16) 0]) = l.map Spec.toLower := by
  induction n with
  | zero =>
    intro l hl _
    have : l = [] := List.length_eq_zero.1 (by omega)
    subst this
    exact ⟨rfl, rfl⟩
  | succ n ih =>
    intro l hl hd
    match l, hl, hd with
    | p :: q :: rest, hl, hd =>
      obtain ⟨a, b, ha, hb, h1, h2⟩ := decode_pair p q (hd p (by simp)) (hd q (by simp))
      have hr := ih rest (by simp only [List.length_cons] at hl; omega)
        (fun c hc => hd c (by simp [hc]))
      simp only [hex.DecodeString, ha, hb, List.length_cons, List.flatMap_cons, List.map_cons,
        hr.1, hr.2, h1, h2]
      exact ⟨trivial, rfl⟩
    | [], hl, _ => simp at hl
    | [_], hl, _ => simp only [List.length_singleton] at hl; omega

theorem FromHex_of_valid (s : GoString) (h : Spec.ValidHexAddress s) :
    FromHex s = hex.DecodeString (Spec.digits s) ∧ (Spec.digits s).length = 40 ∧
      ∀ c ∈ Spec.digits s, Spec.IsHexDigit c := by
  rcases h with ⟨hl, hd⟩ | ⟨hl, hp, hd⟩
  · have hnp : has0xPrefix s = false := by
      match s, hl, hd with
      | a :: b :: rest, _, hd =>
        have hb : Spec.IsHexDigit b := hd b (by simp)
        cases hx : has0xPrefix (a :: b :: rest) with
        | false => rfl
        | true =>
          have hab : a = 48 ∧ (b = 120 ∨ b = 88) := by simpa [has0xPrefix] using hx
          rcases hab.2 with h | h <;> subst h
          · exact absurd hb not_isHexDigit_x.1
          · exact absurd hb not_isHexDigit_x.2
      | [], hl, _ => simp at hl
      | [_], hl, _ => simp at hl
    have hdig : Spec.digits s = s := by simp [Spec.digits, hl]
    rw [hdig]
    refine ⟨?_, hl, hd⟩
    simp [FromHex, hnp, hl, Hex2Bytes]
  · have hpre : has0xPrefix s = true := by
      match s, hl, hp with
      | a :: b :: rest, _, hp =>
        simp only [List.take_succ_cons, List.take_zero, ascii_0x, ascii_0X, List.cons.injEq,
          and_true] at hp
        rcases hp with ⟨rfl, rfl⟩ | ⟨rfl, rfl⟩ <;> simp [has0xPrefix]
      | [], hl, _ => simp at hl
      | [_], hl, _ => simp at hl
    have hdig : Spec.digits s = s.drop 2 := by simp [Spec.digits, hl]
    rw [hdig]
    have hlen : (s.drop 2).length = 40 := by simp [hl]
    refine ⟨?_, hlen, hd⟩
    simp [FromHex, hpre, hlen, Hex2Bytes]

theorem BytesToAddress_val (b : List Byte) (h : b.length = 20) : (BytesToAddress b).val = b := by
  simp [BytesToAddress, AddressLength, h]

theorem HexToAddress_decodes (s : GoString) (h : Spec.ValidHexAddress s) :
    Spec.lowerHex (HexToAddress s) = ascii "0x" ++ (Spec.digits s).map Spec.toLower := by
  obtain ⟨hf, hl, hd⟩ := FromHex_of_valid s h
  obtain ⟨h1, h2⟩ := DecodeString_digits 20 (Spec.digits s) (by omega) hd
  simp only [Spec.lowerHex, HexToAddress, hf, BytesToAddress_val _ h1, h2]

end common

/-! ## Lemmas on address resolution -/

namespace ethereum

open GoModel common

variable {σ : Type}

theorem IsHexAddress_eq_false {s : GoString} (h : ¬ Spec.ValidHexAddress s) :
    IsHexAddress s = false := by
  cases hx : IsHexAddress s with
  | false => rfl
  | true => exact absurd ((IsHexAddress_iff s).1 hx) h

theorem getDepositContract_malformed (env : Collaborators σ) (tec : Option TBTCEthereumChain)
    (address : GoString) (w : World σ) (h : IsHexAddress address = false) :
    getDepositContract env tec address w =
      (.returned (none, some (.errorString (ascii "incorrect deposit contract address"))), w) := by
  simp [getDepositContract, h]

theorem getDepositContract_err (env : Collaborators σ) (t : TBTCEthereumChain)
    (c : EthereumChain) (hc : t.EthereumChain = some c) (address : GoString) (w : World σ)
    (h : IsHexAddress address = true) (d : Option Deposit) (e : GoError) (st1 : σ)
    (hr : env.NewDeposit (HexToAddress address) c.accountKey c.client c.nonceManager
      c.miningWaiter c.transactionMutex w.st = ((d, some e), st1)) :
    getDepositContract env (some t) address w =
      (.returned (none, some e),
        { st := st1,
          trace := w.trace ++ [.NewDeposit (HexToAddress address) c.accountKey c.client
            c.nonceManager c.miningWaiter c.transactionMutex] }) := by
  simp only [getDepositContract, h, Option.bind, hc, hr]
  rfl

theorem getDepositContract_ok (env : Collaborators σ) (t : TBTCEthereumChain)
    (c : EthereumChain) (hc : t.EthereumChain = some c) (address : GoString) (w : World σ)
    (h : IsHexAddress address = true) (d : Option Deposit) (st1 : σ)
    (hr : env.NewDeposit (HexToAddress address) c.accountKey c.client c.nonceManager
      c.miningWaiter c.transactionMutex w.st = ((d, none), st1)) :
    getDepositContract env (some t) address w =
      (.returned (d, none),
        { st := st1,
          trace := w.trace ++ [.NewDeposit (HexToAddress address) c.accountKey c.client
            c.nonceManager c.miningWaiter c.transactionMutex] }) := by
  simp only [getDepositContract, h, Option.bind, hc, hr]
  rfl

theorem getDepositContract_nil (env : Collaborators σ) (tec : Option TBTCEthereumChain)
    (hc : tec.bind (fun t => t.EthereumChain) = none) (address : GoString) (w : World σ)
    (h : IsHexAddress address = true) :
    getDepositContract env tec address w = (.panicked, w) := by
  simp only [getDepositContract, h, hc]
  rfl

theorem isSubmission_NewDeposit (a : Address) (k cl n mw mu : Nat) :
    (Call.NewDeposit a k cl n mw mu).isSubmission = false := rfl

theorem isSubmission_Debugf (format : GoString) (hash : FixedBytes 32) :
    (Call.Debugf format hash).isSubmission = false := rfl

theorem getDepositContract_no_submission (env : Collaborators σ)
    (tec : Option TBTCEthereumChain) (address : GoString) (w : World σ) :
    ∃ added, (getDepositContract env tec address w).2.trace = w.trace ++ added ∧
      added.countP Call.isSubmission = 0 := by
  cases hx : IsHexAddress address with
  | false =>
    rw [getDepositContract_malformed env tec address w hx]
    exact ⟨[], by simp, by simp⟩
  | true =>
    cases hb : tec.bind (fun t => t.EthereumChain) with
    | none =>
      rw [getDepositContract_nil env tec hb address w hx]
      exact ⟨[], by simp, by simp⟩
    | some c =>
      simp only [getDepositContract, hx, hb]
      refine ⟨[.NewDeposit (HexToAddress address) c.accountKey c.client c.nonceManager
        c.miningWaiter c.transactionMutex], ?_, by simp [List.countP_cons, isSubmission_NewDeposit]⟩
      simp only [Bool.not_true, Bool.false_eq_true, if_false]
      split <;> rfl

theorem getDepositContract_returns (env : Collaborators σ) (t : TBTCEthereumChain)
    (c : EthereumChain) (hc : t.EthereumChain = some c) (address : GoString) (w : World σ) :
    ∃ r w1, getDepositContract env (some t) address w = (.returned r, w1) ∧
      ∀ d e st1, Spec.ValidHexAddress address →
        env.NewDeposit (HexToAddress address) c.accountKey c.client c.nonceManager
          c.miningWaiter c.transactionMutex w.st = ((d, some e), st1) →
        r = (none, some e) := by
  cases hx : IsHexAddress address with
  | false =>
    refine ⟨_, _, getDepositContract_malformed env (some t) address w hx, ?_⟩
    intro d e st1 hv
    rw [(IsHexAddress_iff address).2 hv] at hx
    cases hx
  | true =>
    rcases hn : env.NewDeposit (HexToAddress address) c.accountKey c.client c.nonceManager
      c.miningWaiter c.transactionMutex w.st with ⟨⟨d, e⟩, st1⟩
    cases e with
    | some e =>
      refine ⟨_, _, getDepositContract_err env t c hc address w hx d e st1 hn, ?_⟩
      intro d1 e1 st2 _ h
      cases h
      rfl
    | none =>
      refine ⟨_, _, getDepositContract_ok env t c hc address w hx d st1 hn, ?_⟩
      intro d1 e1 st2 _ h
      cases h

theorem getDepositContract_resolved_inv (env : Collaborators σ)
    (tec : Option TBTCEthereumChain) (address : GoString) (w w1 : World σ)
    (deposit : Option Deposit)
    (hres : getDepositContract env tec address w = (.returned (deposit, none), w1)) :
    IsHexAddress address = true ∧
    ∃ c, tec.bind (fun t => t.EthereumChain) = some c ∧
      env.NewDeposit (HexToAddress address) c.accountKey c.client c.nonceManager
        c.miningWaiter c.transactionMutex w.st = ((deposit, none), w1.st) ∧
      w1.trace = w.trace ++ [.NewDeposit (HexToAddress address) c.accountKey c.client
        c.nonceManager c.miningWaiter c.transactionMutex] := by
  cases hx : IsHexAddress address with
  | false =>
    rw [getDepositContract_malformed env tec address w hx] at hres
    simp at hres
  | true =>
    refine ⟨rfl, ?_⟩
    cases hb : tec.bind (fun t => t.EthereumChain) with
    | none =>
      rw [getDepositContract_nil env tec hb address w hx] at hres
      simp at hres
    | some c =>
      refine ⟨c, rfl, ?_⟩
      rcases hn : env.NewDeposit (HexToAddress address) c.accountKey c.client c.nonceManager
        c.miningWaiter c.transactionMutex w.st with ⟨⟨d, e⟩, st1⟩
      simp only [getDepositContract, hx, hb, hn] at hres
      cases e with
      | some e => simp at hres
      | none =>
        simp at hres
        obtain ⟨hd, hw⟩ := hres
        subst hw
        subst hd
        exact ⟨rfl, rfl⟩

theorem Mutation.run_eq (env : Collaborators σ) (tec : Option TBTCEthereumChain)
    (address : GoString) (m : Mutation) (w : World σ) :
    m.run env tec address w =
      match getDepositContract env tec address w with
      | (.panicked, w1) => (.panicked, w1)
      | (.returned (_, some err), w1) => (.returned (some err), w1)
      | (.returned (deposit, none), w1) =>
        match (m.submit env deposit w1.st).1.2 with
        | some err =>
          (.returned (some err),
            { st := (m.submit env deposit w1.st).2, trace := w1.trace ++ [m.call deposit] })
        | none =>
          match (m.submit env deposit w1.st).1.1 with
          | none =>
            (.panicked,
              { st := (m.submit env deposit w1.st).2, trace := w1.trace ++ [m.call deposit] })
          | some transaction =>
            (.returned none,
              { st := env.Debugf m.format transaction.Hash (m.submit env deposit w1.st).2,
                trace := (w1.trace ++ [m.call deposit]) ++
                  [.Debugf m.format transaction.Hash] }) := by
  cases m <;> rfl

theorem Mutation.run_of_resolved (env : Collaborators σ) (tec : Option TBTCEthereumChain)
    (address : GoString) (m : Mutation) (w w1 : World σ) (deposit : Option Deposit)
    (hres : getDepositContract env tec address w = (.returned (deposit, none), w1))
    (tx : Option Transaction) (e : Option GoError) (st2 : σ)
    (hsub : m.submit env deposit w1.st = ((tx, e), st2)) :
    m.run env tec address w =
      match e, tx with
      | some err, _ => (.returned (some err), { st := st2, trace := w1.trace ++ [m.call deposit] })
      | none, none => (.panicked, { st := st2, trace := w1.trace ++ [m.call deposit] })
      | none, some transaction =>
        (.returned none,
          { st := env.Debugf m.format transaction.Hash st2,
            trace := (w1.trace ++ [m.call deposit]) ++ [.Debugf m.format transaction.Hash] }) := by
  rw [Mutation.run_eq, hres]
  simp only [hsub]
  cases e <;> cases tx <;> rfl

theorem Mutation.run_of_unresolved (env : Collaborators σ) (tec : Option TBTCEthereumChain)
    (address : GoString) (m : Mutation) (w w1 : World σ) (deposit : Option Deposit)
    (err : GoError)
    (hres : getDepositContract env tec address w = (.returned (deposit, some err), w1)) :
    m.run env tec address w = (.returned (some err), w1) := by
  rw [Mutation.run_eq, hres]

theorem Mutation.run_of_panicked (env : Collaborators σ) (tec : Option TBTCEthereumChain)
    (address : GoString) (m : Mutation) (w w1 : World σ)
    (hres : getDepositContract env tec address w = (.panicked, w1)) :
    m.run env tec address w = (.panicked, w1) := by
  rw [Mutation.run_eq, hres]

theorem WithTBTCExtension_built_inv (env : Collaborators σ)
    (ethereumChain : Option EthereumChain) (address : GoString) (w w1 : World σ)
    (gateway : TBTCEthereumChain) (err : Option GoError)
    (hbuilt : WithTBTCExtension env ethereumChain address w =
      (.returned (some gateway, err), w1)) :
    ∃ c, ethereumChain = some c ∧ gateway.EthereumChain = some c ∧
      gateway.tbtcSystemContract =
        (env.NewTBTCSystem (HexToAddress address) c.accountKey c.client c.nonceManager
          c.miningWaiter c.transactionMutex w.st).1.1 ∧
      w1.trace = w.trace ++ [.NewTBTCSystem (HexToAddress address) c.accountKey c.client
        c.nonceManager c.miningWaiter c.transactionMutex] := by
  cases hx : IsHexAddress address with
  | false => simp [WithTBTCExtension, hx] at hbuilt
  | true =>
    cases ethereumChain with
    | none => simp [WithTBTCExtension, hx] at hbuilt
    | some c =>
      rcases hn : env.NewTBTCSystem (HexToAddress address) c.accountKey c.client
        c.nonceManager c.miningWaiter c.transactionMutex w.st with ⟨⟨h, e⟩, st1⟩
      simp only [WithTBTCExtension, hx, hn] at hbuilt
      cases e with
      | some e => simp at hbuilt
      | none =>
        simp at hbuilt
        obtain ⟨⟨hg, _⟩, hw⟩ := hbuilt
        subst hw
        subst hg
        exact ⟨c, rfl, rfl, by rw [hn], rfl⟩

theorem getDepositContract_shares (env : Collaborators σ) (t : TBTCEthereumChain)
    (c : EthereumChain) (hc : t.EthereumChain = some c) (address : GoString) (w : World σ) :
    ∃ added, (getDepositContract env (some t) address w).2.trace = w.trace ++ added ∧
      ∀ call ∈ added, call.SharesResources c t.tbtcSystemContract := by
  cases hx : IsHexAddress address with
  | false =>
    rw [getDepositContract_malformed env (some t) address w hx]
    exact ⟨[], by simp, by simp⟩
  | true =>
    rcases hn : env.NewDeposit (HexToAddress address) c.accountKey c.client c.nonceManager
      c.miningWaiter c.transactionMutex w.st with ⟨⟨d, e⟩, st1⟩
    cases e with
    | some e =>
      rw [getDepositContract_err env t c hc address w hx d e st1 hn]
      exact ⟨_, rfl, by simp [Call.SharesResources]⟩
    | none =>
      rw [getDepositContract_ok env t c hc address w hx d st1 hn]
      exact ⟨_, rfl, by simp [Call.SharesResources]⟩

theorem KeepAddress_shares (env : Collaborators σ) (t : TBTCEthereumChain)
    (c : EthereumChain) (hc : t.EthereumChain = some c) (address : GoString) (w : World σ) :
    ∃ added, (KeepAddress env (some t) address w).2.trace = w.trace ++ added ∧
      ∀ call ∈ added, call.SharesResources c t.tbtcSystemContract := by
  obtain ⟨added, htr, hall⟩ := getDepositContract_shares env t c hc address w
  rcases hres : getDepositContract env (some t) address w with ⟨o, w1⟩
  rw [hres] at htr
  simp only at htr
  simp only [KeepAddress, hres]
  rcases o with ⟨d, e⟩ | _
  · cases e with
    | some e => exact ⟨added, htr, hall⟩
    | none =>
      refine ⟨added ++ [.KeepAddress d], ?_, ?_⟩
      · simp only
        split <;> simp [htr]
      · intro call hcall
        rcases List.mem_append.1 hcall with h | h
        · exact hall call h
        · simp only [List.mem_singleton] at h
          subst h
          trivial
  · exact ⟨added, htr, hall⟩

theorem mutation_run_shares (env : Collaborators σ) (t : TBTCEthereumChain)
    (c : EthereumChain) (hc : t.EthereumChain = some c) (address : GoString) (m : Mutation)
    (w : World σ) :
    ∃ added, (m.run env (some t) address w).2.trace = w.trace ++ added ∧
      ∀ call ∈ added, call.SharesResources c t.tbtcSystemContract := by
  have hcall : ∀ d, (m.call d).SharesResources c t.tbtcSystemContract := by
    intro d; cases m <;> trivial
  obtain ⟨added, htr, hall⟩ := getDepositContract_shares env t c hc address w
  rcases hres : getDepositContract env (some t) address w with ⟨o, w1⟩
  rw [hres] at htr
  simp only at htr
  rcases o with ⟨d, e⟩ | _
  · cases e with
    | some e =>
      rw [Mutation.run_of_unresolved env _ address m w w1 d e hres]
      exact ⟨added, htr, hall⟩
    | none =>
      rcases hsb : m.submit env d w1.st with ⟨⟨tx, e⟩, st2⟩
      rw [Mutation.run_of_resolved env _ address m w w1 d hres tx e st2 hsb]
      cases e with
      | some e =>
        refine ⟨added ++ [m.call d], by simp [htr], ?_⟩
        intro call hmem
        rcases List.mem_append.1 hmem with h | h
        · exact hall call h
        · simp only [List.mem_singleton] at h
          subst h
          exact hcall d
      | none =>
        cases tx with
        | none =>
          refine ⟨added ++ [m.call d], by simp [htr], ?_⟩
          intro call hmem
          rcases List.mem_append.1 hmem with h | h
          · exact hall call h
          · simp only [List.mem_singleton] at h
            subst h
            exact hcall d
        | some tx =>
          refine ⟨added ++ [m.call d, .Debugf m.format tx.Hash], by simp [htr], ?_⟩
          intro call hmem
          rcases List.mem_append.1 hmem with h | h
          · exact hall call h
          · simp only [List.mem_cons, List.mem_singleton, List.not_mem_nil, or_false] at h
            rcases h with h | h
            · subst h; exact hcall d
            · subst h; trivial
  · rw [Mutation.run_of_panicked env _ address m w w1 hres]
    exact ⟨added, htr, hall⟩

theorem op_run_shares (env : Collaborators σ) (t : TBTCEthereumChain)
    (c : EthereumChain) (hc : t.EthereumChain = some c) (op : Op σ) (w : World σ) :
    ∃ added, (op.run env (some t) w).trace = w.trace ++ added ∧
      ∀ call ∈ added, call.SharesResources c t.tbtcSystemContract := by
  cases op with
  | OnDepositCreated handler =>
    exact ⟨[.WatchCreated t.tbtcSystemContract], rfl, by simp [Call.SharesResources]⟩
  | OnDepositRegisteredPubkey handler =>
    exact ⟨[.WatchRegisteredPubkey t.tbtcSystemContract], rfl, by simp [Call.SharesResources]⟩
  | OnDepositRedemptionRequested handler =>
    exact ⟨[.WatchRedemptionRequested t.tbtcSystemContract], rfl,
      by simp [Call.SharesResources]⟩
  | OnDepositGotRedemptionSignature handler =>
    exact ⟨[.WatchGotRedemptionSignature t.tbtcSystemContract], rfl,
      by simp [Call.SharesResources]⟩
  | OnDepositRedeemed handler =>
    exact ⟨[.WatchRedeemed t.tbtcSystemContract], rfl, by simp [Call.SharesResources]⟩
  | KeepAddress depositAddress => exact KeepAddress_shares env t c hc depositAddress w
  | RetrieveSignerPubkey depositAddress =>
    exact mutation_run_shares env t c hc depositAddress .RetrieveSignerPubkey w
  | ProvideRedemptionSignature depositAddress v r s =>
    exact mutation_run_shares env t c hc depositAddress (.ProvideRedemptionSignature v r s) w
  | IncreaseRedemptionFee depositAddress p n =>
    exact mutation_run_shares env t c hc depositAddress (.IncreaseRedemptionFee p n) w

theorem runOps_shares (env : Collaborators σ) (t : TBTCEthereumChain)
    (c : EthereumChain) (hc : t.EthereumChain = some c) (ops : List (Op σ)) :
    ∀ w : World σ, ∃ added, (runOps env (some t) ops w).trace = w.trace ++ added ∧
      ∀ call ∈ added, call.SharesResources c t.tbtcSystemContract := by
  induction ops with
  | nil => intro w; exact ⟨[], by simp [runOps], by simp⟩
  | cons op ops ih =>
    intro w
    obtain ⟨a1, h1, hall1⟩ := op_run_shares env t c hc op w
    obtain ⟨a2, h2, hall2⟩ := ih (op.run env (some t) w)
    refine ⟨a1 ++ a2, ?_, ?_⟩
    · simp only [runOps, List.foldl_cons] at h2 ⊢
      rw [h2, h1, List.append_assoc]
    · intro call hmem
      rcases List.mem_append.1 hmem with h | h
      · exact hall1 call h
      · exact hall2 call h

end ethereum

/-! ## The claims -/

namespace ethereum

open GoModel common

variable {σ : Type}

/-- C1. For every string that is not a syntactically valid hex address (an optional
`0x`/`0X` prefix followed by exactly 40 hex digits), on any gateway (a nil one
included) and with any collaborators, address resolution and each of `KeepAddress`,
`RetrieveSignerPubkey`, `ProvideRedemptionSignature` and `IncreaseRedemptionFee`
return the error "incorrect deposit contract address" and leave the world as it was:
no call is appended to the trace (no `contract.NewDeposit`, no read, no submission)
and the state of the collaborators is untouched. -/
theorem malformed_address_fails_before_any_call (env : Collaborators σ)
    (tec : Option TBTCEthereumChain) (address : GoString) (v : Byte) (r s : FixedBytes 32)
    (previousOutputValueBytes newOutputValueBytes : FixedBytes 8) (w : World σ)
    (h : ¬ Spec.ValidHexAddress address) :
    getDepositContract env tec address w =
      (.returned (none, some (.errorString (ascii "incorrect deposit contract address"))), w) ∧
    KeepAddress env tec address w =
      (.returned ([], some (.errorString (ascii "incorrect deposit contract address"))), w) ∧
    RetrieveSignerPubkey env tec address w =
      (.returned (some (.errorString (ascii "incorrect deposit contract address"))), w) ∧
    ProvideRedemptionSignature env tec address v r s w =
      (.returned (some (.errorString (ascii "incorrect deposit contract address"))), w) ∧
    IncreaseRedemptionFee env tec address previousOutputValueBytes newOutputValueBytes w =
      (.returned (some (.errorString (ascii "incorrect deposit contract address"))), w) := by
  have hx := IsHexAddress_eq_false h
  have hg := getDepositContract_malformed env tec address w hx
  refine ⟨hg, ?_, ?_, ?_, ?_⟩
  · simp only [KeepAddress, hg]
  · simp only [RetrieveSignerPubkey, hg]
  · simp only [ProvideRedemptionSignature, hg]
  · simp only [IncreaseRedemptionFee, hg]

/-- Witness of C1: a string of `0x` and 39 hex digits is malformed, and on the simulated
ledger no operation leaves a call in the trace. -/
theorem malformed_address_fails_before_any_call_witness :
    ¬ Spec.ValidHexAddress Demo.malformed ∧
    (KeepAddress (Demo.env (none, none)) (some Demo.gateway) Demo.malformed Demo.world).2.trace
      = [] ∧
    (RetrieveSignerPubkey (Demo.env (none, none)) (some Demo.gateway) Demo.malformed
      Demo.world).1 =
      .returned (some (.errorString (ascii "incorrect deposit contract address"))) :=
  ⟨by decide,
    by rw [(malformed_address_fails_before_any_call (Demo.env (none, none)) (some Demo.gateway)
      Demo.malformed 0 (Demo.fill 32 0) (Demo.fill 32 0) (Demo.fill 8 0) (Demo.fill 8 0)
      Demo.world (by decide)).2.1]; rfl,
    by rw [(malformed_address_fails_before_any_call (Demo.env (none, none)) (some Demo.gateway)
      Demo.malformed 0 (Demo.fill 32 0) (Demo.fill 32 0) (Demo.fill 8 0) (Demo.fill 8 0)
      Demo.world (by decide)).2.2.1]⟩

/-- C2. For every `Config` and every contract name, `Config.ContractAddress` returns,
and the error it returns is non-nil if and only if the name is absent from
`ContractAddresses` or the value stored under it is not a syntactically valid hex
address; with a non-nil error the address is the zero address, and with a nil error
the address is `common.HexToAddress` of the configured value, which is its hex
decoding: rendered in lower-case hex, the address gives back the 40 digits of the value
in lower case. -/
theorem ContractAddress_error_iff (c : Config) (contractName : GoString) :
    ∃ address err, Config.ContractAddress (some c) contractName = .returned (address, err) ∧
      (err ≠ none ↔
        (c.ContractAddresses contractName = none ∨
          ∃ value, c.ContractAddresses contractName = some value ∧
            ¬ Spec.ValidHexAddress value)) ∧
      (err ≠ none → address = Address.zero) ∧
      (err = none →
        ∃ value, c.ContractAddresses contractName = some value ∧
          address = HexToAddress value ∧
          Spec.lowerHex address = ascii "0x" ++ (Spec.digits value).map Spec.toLower) := by
  cases hv : c.ContractAddresses contractName with
  | none =>
    refine ⟨Address.zero, _, by simp only [Config.ContractAddress, hv]; rfl, ?_, ?_, ?_⟩
    · simp
    · simp
    · simp
  | some value =>
    by_cases hx : IsHexAddress value = true
    · have hs := (IsHexAddress_iff value).1 hx
      refine ⟨HexToAddress value, none, by simp [Config.ContractAddress, hv, hx], ?_, ?_, ?_⟩
      · simp [hs]
      · simp
      · intro _
        exact ⟨value, rfl, rfl, HexToAddress_decodes value hs⟩
    · have hs : ¬ Spec.ValidHexAddress value := fun h => hx ((IsHexAddress_iff value).2 h)
      have hx2 : IsHexAddress value = false := by simpa using hx
      refine ⟨Address.zero, _, by simp only [Config.ContractAddress, hv, hx2]; rfl, ?_, ?_, ?_⟩
      · simp [hs]
      · simp
      · simp

/-- C3. `WithTBTCExtension` never produces a partially-initialized gateway. For every base
chain handle (a nil one included), address string and world: when the address is not a
syntactically valid hex address the result is a nil gateway with the error "incorrect
TBTCSystem contract address" and the world is untouched (`contract.NewTBTCSystem` is not
called); when the address is valid and `contract.NewTBTCSystem` fails, the result is a nil
gateway with the error of the setup, unchanged; a non-nil gateway is returned only with a
nil error, and it then holds the given base chain handle and the contract handle the setup
returned; a nil gateway is never returned with a nil error. -/
theorem WithTBTCExtension_all_or_nothing (env : Collaborators σ)
    (ethereumChain : Option EthereumChain) (tbtcSystemContractAddress : GoString)
    (w : World σ) :
    (¬ Spec.ValidHexAddress tbtcSystemContractAddress →
      WithTBTCExtension env ethereumChain tbtcSystemContractAddress w =
        (.returned
          (none, some (.errorString (ascii "incorrect TBTCSystem contract address"))), w)) ∧
    (∀ c h e st1, ethereumChain = some c → Spec.ValidHexAddress tbtcSystemContractAddress →
      env.NewTBTCSystem (HexToAddress tbtcSystemContractAddress) c.accountKey c.client
        c.nonceManager c.miningWaiter c.transactionMutex w.st = ((h, some e), st1) →
      WithTBTCExtension env ethereumChain tbtcSystemContractAddress w =
        (.returned (none, some e),
          { st := st1,
            trace := w.trace ++ [.NewTBTCSystem (HexToAddress tbtcSystemContractAddress)
              c.accountKey c.client c.nonceManager c.miningWaiter c.transactionMutex] })) ∧
    (∀ gateway err w1,
      WithTBTCExtension env ethereumChain tbtcSystemContractAddress w =
        (.returned (some gateway, err), w1) →
      err = none ∧ Spec.ValidHexAddress tbtcSystemContractAddress ∧
        ∃ c h, ethereumChain = some c ∧
          env.NewTBTCSystem (HexToAddress tbtcSystemContractAddress) c.accountKey c.client
            c.nonceManager c.miningWaiter c.transactionMutex w.st = ((h, none), w1.st) ∧
          gateway = { EthereumChain := ethereumChain, tbtcSystemContract := h }) ∧
    (∀ err w1,
      WithTBTCExtension env ethereumChain tbtcSystemContractAddress w =
        (.returned (none, err), w1) → err ≠ none) := by
  by_cases hs : Spec.ValidHexAddress tbtcSystemContractAddress
  · have hx := (IsHexAddress_iff _).2 hs
    cases ethereumChain with
    | none =>
      refine ⟨fun h => absurd hs h, ?_, ?_, ?_⟩
      · intro c h e st1 hc; cases hc
      · intro gateway err w1 hr; simp [WithTBTCExtension, hx] at hr
      · intro err w1 hr; simp [WithTBTCExtension, hx] at hr
    | some c =>
      rcases hn : env.NewTBTCSystem (HexToAddress tbtcSystemContractAddress) c.accountKey
        c.client c.nonceManager c.miningWaiter c.transactionMutex w.st with ⟨⟨h, e⟩, st1⟩
      cases e with
      | none =>
        refine ⟨fun h => absurd hs h, ?_, ?_, ?_⟩
        · intro c1 h1 e1 st2 hc _ hn1
          cases hc
          rw [hn] at hn1
          cases hn1
        · intro gateway err w1 hr
          simp only [WithTBTCExtension, hx, hn] at hr
          simp at hr
          obtain ⟨⟨hg, he⟩, hw⟩ := hr
          subst hw
          exact ⟨he.symm, hs, c, h, rfl, hn, hg.symm⟩
        · intro err w1 hr
          simp only [WithTBTCExtension, hx, hn] at hr
          simp at hr
      | some e =>
        refine ⟨fun h => absurd hs h, ?_, ?_, ?_⟩
        · intro c1 h1 e1 st2 hc _ hn1
          cases hc
          rw [hn] at hn1
          cases hn1
          simp only [WithTBTCExtension, hx, hn]
          rfl
        · intro gateway err w1 hr
          simp only [WithTBTCExtension, hx, hn] at hr
          simp at hr
        · intro err w1 hr
          simp only [WithTBTCExtension, hx, hn] at hr
          simp at hr
          rw [← hr.1]
          simp
  · have hx := IsHexAddress_eq_false hs
    refine ⟨fun _ => by simp [WithTBTCExtension, hx], ?_, ?_, ?_⟩
    · intro c h e st1 _ hv; exact absurd hv hs
    · intro gateway err w1 hr; simp [WithTBTCExtension, hx] at hr
    · intro err w1 hr
      simp [WithTBTCExtension, hx] at hr
      rw [← hr.1]
      simp

/-- C4, counterexample. On the simulated ledger two runs of `RetrieveSignerPubkey` submit
two different transactions with success, and the operation returns the same value in
both, a nil error: what it returns does not carry the handle of the submitted
transaction. -/
theorem returned_value_carries_no_transaction :
    (Demo.env (some ⟨Demo.fill 32 1⟩, none)).RetrieveSignerPubkey (some ⟨0⟩) 1 =
      ((some ⟨Demo.fill 32 1⟩, none), 2) ∧
    (Demo.env (some ⟨Demo.fill 32 2⟩, none)).RetrieveSignerPubkey (some ⟨0⟩) 1 =
      ((some ⟨Demo.fill 32 2⟩, none), 2) ∧
    (⟨Demo.fill 32 1⟩ : Transaction) ≠ ⟨Demo.fill 32 2⟩ ∧
    RetrieveSignerPubkey (Demo.env (some ⟨Demo.fill 32 1⟩, none)) (some Demo.gateway)
        Demo.address Demo.world =
      (.returned none,
        { st := 3,
          trace := [.NewDeposit (HexToAddress Demo.address) 1 2 3 4 5,
            .RetrieveSignerPubkey (some ⟨0⟩),
            .Debugf (ascii "submitted RetrieveSignerPubkey transaction with hash: [%x]")
              (Demo.fill 32 1)] }) ∧
    (RetrieveSignerPubkey (Demo.env (some ⟨Demo.fill 32 2⟩, none)) (some Demo.gateway)
        Demo.address Demo.world).1 = .returned none := by
  refine ⟨rfl, rfl, by decide, ?_, ?_⟩
  · have hx : IsHexAddress Demo.address = true := by decide
    have hz : HexToAddress Demo.address ≠ Address.zero := by decide
    have hr := getDepositContract_ok (Demo.env (some ⟨Demo.fill 32 1⟩, none)) Demo.gateway
      Demo.chain rfl Demo.address Demo.world hx (some ⟨0⟩) 1 (by
        simp only [Demo.env, hz, if_false]; rfl)
    simp only [RetrieveSignerPubkey, hr]
    rfl
  · have hx : IsHexAddress Demo.address = true := by decide
    have hz : HexToAddress Demo.address ≠ Address.zero := by decide
    have hr := getDepositContract_ok (Demo.env (some ⟨Demo.fill 32 2⟩, none)) Demo.gateway
      Demo.chain rfl Demo.address Demo.world hx (some ⟨0⟩) 1 (by
        simp only [Demo.env, hz, if_false]; rfl)
    simp only [RetrieveSignerPubkey, hr]
    rfl

/-- C4, amended. For each of the three mutating deposit operations and every input, the
operation returns an error value only. With a malformed address it returns the error of
address resolution; whenever address resolution returns an error (the one of the address
check, or the one of `contract.NewDeposit`, which resolution passes on unchanged) the
operation returns exactly that error, in the world resolution left, without a
submission. When a handle is resolved and the delegated submission returns an error,
the operation returns exactly that error after that one submission. When the
submission succeeds with a transaction, the operation returns nil after passing the hash
of the transaction to `logger.Debugf`. In every case the operation adds at most one
submission to the trace. On a gateway that holds a base chain handle, address
resolution always returns. -/
theorem mutation_returns_error_only (env : Collaborators σ) (tec : Option TBTCEthereumChain)
    (address : GoString) (m : Mutation) (w : World σ) :
    (¬ Spec.ValidHexAddress address →
      m.run env tec address w =
        (.returned (some (.errorString (ascii "incorrect deposit contract address"))), w)) ∧
    (∀ d e w1, getDepositContract env tec address w = (.returned (d, some e), w1) →
      m.run env tec address w = (.returned (some e), w1)) ∧
    (∀ d w1, getDepositContract env tec address w = (.returned (d, none), w1) →
      (∀ tx e st2, m.submit env d w1.st = ((tx, some e), st2) →
        m.run env tec address w =
          (.returned (some e), { st := st2, trace := w1.trace ++ [m.call d] })) ∧
      (∀ tx st2, m.submit env d w1.st = ((some tx, none), st2) →
        m.run env tec address w =
          (.returned none,
            { st := env.Debugf m.format tx.Hash st2,
              trace := w1.trace ++ [m.call d, .Debugf m.format tx.Hash] }))) ∧
    (∃ added, (m.run env tec address w).2.trace = w.trace ++ added ∧
      added.countP Call.isSubmission ≤ 1) ∧
    (∀ t c, tec = some t → t.EthereumChain = some c →
      ∃ r w1, getDepositContract env tec address w = (.returned r, w1) ∧
        ∀ d e st1, Spec.ValidHexAddress address →
          env.NewDeposit (HexToAddress address) c.accountKey c.client c.nonceManager
            c.miningWaiter c.transactionMutex w.st = ((d, some e), st1) →
          r = (none, some e)) := by
  have hsub : ∀ d, (m.call d).isSubmission = true := by
    intro d; cases m <;> rfl
  refine ⟨?_, ?_, ?_, ?_, ?_⟩
  · intro hs
    exact Mutation.run_of_unresolved env tec address m w w none _
      (getDepositContract_malformed env tec address w (IsHexAddress_eq_false hs))
  · intro d e w1 hres
    exact Mutation.run_of_unresolved env tec address m w w1 d e hres
  · intro d w1 hres
    refine ⟨?_, ?_⟩
    · intro tx e st2 hsb
      rw [Mutation.run_of_resolved env tec address m w w1 d hres tx (some e) st2 hsb]
    · intro tx st2 hsb
      rw [Mutation.run_of_resolved env tec address m w w1 d hres (some tx) none st2 hsb]
      simp
  · obtain ⟨added, htr, hno⟩ := getDepositContract_no_submission env tec address w
    rcases hres : getDepositContract env tec address w with ⟨o, w1⟩
    rw [hres] at htr
    simp only at htr
    rcases o with ⟨d, e⟩ | _
    · cases e with
      | some e =>
        rw [Mutation.run_of_unresolved env tec address m w w1 d e hres]
        exact ⟨added, htr, by omega⟩
      | none =>
        rcases hsb : m.submit env d w1.st with ⟨⟨tx, e⟩, st2⟩
        rw [Mutation.run_of_resolved env tec address m w w1 d hres tx e st2 hsb]
        cases e with
        | some e =>
          exact ⟨added ++ [m.call d], by simp [htr],
            by simp [List.countP_append, hno, List.countP_cons, hsub]⟩
        | none =>
          cases tx with
          | none =>
            exact ⟨added ++ [m.call d], by simp [htr],
              by simp [List.countP_append, hno, List.countP_cons, hsub]⟩
          | some tx =>
            exact ⟨added ++ [m.call d, .Debugf m.format tx.Hash], by simp [htr],
              by simp [List.countP_append, hno, List.countP_cons, hsub, isSubmission_Debugf]⟩
    · rw [Mutation.run_of_panicked env tec address m w w1 hres]
      exact ⟨added, htr, by omega⟩
  · intro t c ht hc
    subst ht
    exact getDepositContract_returns env t c hc address w

/-- Witness of C4 (amended): on the simulated ledger the address of the EIP-55 test vector
resolves to the handle 0, and a submission of `IncreaseRedemptionFee` that the ledger
rejects makes the operation return the error of the ledger, unchanged, after that one
submission. -/
theorem mutation_returns_error_only_witness :
    getDepositContract (Demo.env (none, some Demo.rejected)) (some Demo.gateway) Demo.address
        Demo.world =
      (.returned (some ⟨0⟩, none),
        { st := 1, trace := [.NewDeposit (HexToAddress Demo.address) 1 2 3 4 5] }) ∧
    IncreaseRedemptionFee (Demo.env (none, some Demo.rejected)) (some Demo.gateway)
        Demo.address (Demo.fill 8 1) (Demo.fill 8 2) Demo.world =
      (.returned (some Demo.rejected),
        { st := 2,
          trace := [.NewDeposit (HexToAddress Demo.address) 1 2 3 4 5,
            .IncreaseRedemptionFee (some ⟨0⟩) (Demo.fill 8 1) (Demo.fill 8 2)] }) := by
  have hx : IsHexAddress Demo.address = true := by decide
  have hz : HexToAddress Demo.address ≠ Address.zero := by decide
  have hres := getDepositContract_ok (Demo.env (none, some Demo.rejected)) Demo.gateway
    Demo.chain rfl Demo.address Demo.world hx (some ⟨0⟩) 1 (by
      simp only [Demo.env, hz, if_false]; rfl)
  exact ⟨hres,
    ((mutation_returns_error_only (Demo.env (none, some Demo.rejected)) (some Demo.gateway)
      Demo.address (.IncreaseRedemptionFee (Demo.fill 8 1) (Demo.fill 8 2))
      Demo.world).2.2.1 (some ⟨0⟩) _ hres).1 none Demo.rejected 2 rfl⟩

/-- C7. For every deposit address and the deposit contract handle resolved for it (the
address is then syntactically valid, and the handle is the one `contract.NewDeposit`
returned for the hex decoding, `common.HexToAddress`, of the caller's string), and for
every pair of 8-byte values, `IncreaseRedemptionFee` delegates exactly one
`IncreaseRedemptionFee` call to that handle, with `previousOutputValueBytes` and
`newOutputValueBytes` as supplied and in the order supplied: the call is the next
entry of the trace, what follows it is no submission, and the result and the final
state of the operation are those of the binding called on that handle with these two
values in this order. Likewise `ProvideRedemptionSignature` delegates exactly one call
with `v`, `r` and `s` unchanged and in order. -/
theorem arguments_forwarded_unchanged (env : Collaborators σ)
    (tec : Option TBTCEthereumChain) (address : GoString) (v : Byte) (r s : FixedBytes 32)
    (previousOutputValueBytes newOutputValueBytes : FixedBytes 8) (w w1 : World σ)
    (deposit : Option Deposit)
    (hres : getDepositContract env tec address w = (.returned (deposit, none), w1)) :
    Spec.ValidHexAddress address ∧
    (∃ c, tec.bind (fun t => t.EthereumChain) = some c ∧
      env.NewDeposit (HexToAddress address) c.accountKey c.client c.nonceManager
        c.miningWaiter c.transactionMutex w.st = ((deposit, none), w1.st) ∧
      w1.trace = w.trace ++ [.NewDeposit (HexToAddress address) c.accountKey c.client
        c.nonceManager c.miningWaiter c.transactionMutex]) ∧
    (∃ tail,
      (IncreaseRedemptionFee env tec address previousOutputValueBytes newOutputValueBytes
          w).2.trace =
        w1.trace ++
          .IncreaseRedemptionFee deposit previousOutputValueBytes newOutputValueBytes :: tail ∧
      tail.countP Call.isSubmission = 0) ∧
    (IncreaseRedemptionFee env tec address previousOutputValueBytes newOutputValueBytes w).1 =
      (match (env.IncreaseRedemptionFee deposit previousOutputValueBytes newOutputValueBytes
          w1.st).1 with
        | (_, some err) => .returned (some err)
        | (none, none) => .panicked
        | (some _, none) => .returned none) ∧
    (IncreaseRedemptionFee env tec address previousOutputValueBytes newOutputValueBytes
        w).2.st =
      (match env.IncreaseRedemptionFee deposit previousOutputValueBytes newOutputValueBytes
          w1.st with
        | ((some transaction, none), st2) =>
          env.Debugf (ascii "submitted IncreaseRedemptionFee transaction with hash: [%x]")
            transaction.Hash st2
        | (_, st2) => st2) ∧
    (∃ tail,
      (ProvideRedemptionSignature env tec address v r s w).2.trace =
        w1.trace ++ .ProvideRedemptionSignature deposit v r s :: tail ∧
      tail.countP Call.isSubmission = 0) ∧
    (ProvideRedemptionSignature env tec address v r s w).1 =
      (match (env.ProvideRedemptionSignature deposit v r s w1.st).1 with
        | (_, some err) => .returned (some err)
        | (none, none) => .panicked
        | (some _, none) => .returned none) ∧
    (ProvideRedemptionSignature env tec address v r s w).2.st =
      (match env.ProvideRedemptionSignature deposit v r s w1.st with
        | ((some transaction, none), st2) =>
          env.Debugf (ascii "submitted ProvideRedemptionSignature transaction with hash: [%x]")
            transaction.Hash st2
        | (_, st2) => st2) := by
  refine ⟨(IsHexAddress_iff address).1
      (getDepositContract_resolved_inv env tec address w w1 deposit hres).1,
    (getDepositContract_resolved_inv env tec address w w1 deposit hres).2,
    ?_, ?_, ?_, ?_, ?_, ?_⟩
  · rcases hsb : env.IncreaseRedemptionFee deposit previousOutputValueBytes
      newOutputValueBytes w1.st with ⟨⟨tx, e⟩, st2⟩
    have hrun := Mutation.run_of_resolved env tec address
      (.IncreaseRedemptionFee previousOutputValueBytes newOutputValueBytes) w w1 deposit hres
      tx e st2 hsb
    simp only [Mutation.run] at hrun
    rw [hrun]
    cases e with
    | some e => exact ⟨[], by simp [Mutation.call], by simp⟩
    | none =>
      cases tx with
      | none => exact ⟨[], by simp [Mutation.call], by simp⟩
      | some tx =>
        exact ⟨[.Debugf (Mutation.format
            (.IncreaseRedemptionFee previousOutputValueBytes newOutputValueBytes)) tx.Hash],
          by simp [Mutation.call], by simp [List.countP_cons, isSubmission_Debugf]⟩
  · rcases hsb : env.IncreaseRedemptionFee deposit previousOutputValueBytes
      newOutputValueBytes w1.st with ⟨⟨tx, e⟩, st2⟩
    have hrun := Mutation.run_of_resolved env tec address
      (.IncreaseRedemptionFee previousOutputValueBytes newOutputValueBytes) w w1 deposit hres
      tx e st2 hsb
    simp only [Mutation.run] at hrun
    rw [hrun]
    cases e <;> cases tx <;> rfl
  · rcases hsb : env.IncreaseRedemptionFee deposit previousOutputValueBytes
      newOutputValueBytes w1.st with ⟨⟨tx, e⟩, st2⟩
    have hrun := Mutation.run_of_resolved env tec address
      (.IncreaseRedemptionFee previousOutputValueBytes newOutputValueBytes) w w1 deposit hres
      tx e st2 hsb
    simp only [Mutation.run] at hrun
    rw [hrun]
    cases e <;> cases tx <;> rfl
  · rcases hsb : env.ProvideRedemptionSignature deposit v r s w1.st with ⟨⟨tx, e⟩, st2⟩
    have hrun := Mutation.run_of_resolved env tec address
      (.ProvideRedemptionSignature v r s) w w1 deposit hres tx e st2 hsb
    simp only [Mutation.run] at hrun
    rw [hrun]
    cases e with
    | some e => exact ⟨[], by simp [Mutation.call], by simp⟩
    | none =>
      cases tx with
      | none => exact ⟨[], by simp [Mutation.call], by simp⟩
      | some tx =>
        exact ⟨[.Debugf (Mutation.format (.ProvideRedemptionSignature v r s)) tx.Hash],
          by simp [Mutation.call], by simp [List.countP_cons, isSubmission_Debugf]⟩
  · rcases hsb : env.ProvideRedemptionSignature deposit v r s w1.st with ⟨⟨tx, e⟩, st2⟩
    have hrun := Mutation.run_of_resolved env tec address
      (.ProvideRedemptionSignature v r s) w w1 deposit hres tx e st2 hsb
    simp only [Mutation.run] at hrun
    rw [hrun]
    cases e <;> cases tx <;> rfl
  · rcases hsb : env.ProvideRedemptionSignature deposit v r s w1.st with ⟨⟨tx, e⟩, st2⟩
    have hrun := Mutation.run_of_resolved env tec address
      (.ProvideRedemptionSignature v r s) w w1 deposit hres tx e st2 hsb
    simp only [Mutation.run] at hrun
    rw [hrun]
    cases e <;> cases tx <;> rfl

/-- Witness of C7: on the simulated ledger the address of the EIP-55 test vector resolves
to the handle 0, and `IncreaseRedemptionFee` returns nil after one call on that handle
with the two values in the order supplied. -/
theorem arguments_forwarded_unchanged_witness :
    getDepositContract (Demo.env (some ⟨Demo.fill 32 9⟩, none)) (some Demo.gateway)
        Demo.address Demo.world =
      (.returned (some ⟨0⟩, none),
        { st := 1, trace := [.NewDeposit (HexToAddress Demo.address) 1 2 3 4 5] }) ∧
    (IncreaseRedemptionFee (Demo.env (some ⟨Demo.fill 32 9⟩, none)) (some Demo.gateway)
        Demo.address (Demo.fill 8 1) (Demo.fill 8 2) Demo.world).1 = .returned none ∧
    ∃ tail,
      (IncreaseRedemptionFee (Demo.env (some ⟨Demo.fill 32 9⟩, none)) (some Demo.gateway)
          Demo.address (Demo.fill 8 1) (Demo.fill 8 2) Demo.world).2.trace =
        [.NewDeposit (HexToAddress Demo.address) 1 2 3 4 5] ++
          .IncreaseRedemptionFee (some ⟨0⟩) (Demo.fill 8 1) (Demo.fill 8 2) :: tail ∧
      tail.countP Call.isSubmission = 0 := by
  have hx : IsHexAddress Demo.address = true := by decide
  have hz : HexToAddress Demo.address ≠ Address.zero := by decide
  have hres := getDepositContract_ok (Demo.env (some ⟨Demo.fill 32 9⟩, none)) Demo.gateway
    Demo.chain rfl Demo.address Demo.world hx (some ⟨0⟩) 1 (by
      simp only [Demo.env, hz, if_false]; rfl)
  have h := arguments_forwarded_unchanged (Demo.env (some ⟨Demo.fill 32 9⟩, none))
    (some Demo.gateway) Demo.address 27 (Demo.fill 32 3) (Demo.fill 32 4) (Demo.fill 8 1)
    (Demo.fill 8 2) Demo.world _ (some ⟨0⟩) hres
  exact ⟨hres, h.2.2.2.1, h.2.2.1⟩

/-- C5. For every RedemptionRequested log delivered to the `success` callback that
`OnDepositRedemptionRequested` installs, the callback is one invocation of the user
handler: digest, utxoValue, redeemerOutputScript, requestedFee, outpoint and blockNumber
are passed as they are in the log and in the same positions, and only the two
addresses are converted, the deposit address to its `Hex()` rendering in the first
position and the requester to its own `Hex()` rendering in the second. With a handler
that records its invocations, the log of invocations grows by exactly this one entry,
also when the log is delivered by a feed through `OnDepositRedemptionRequested` itself.
The digest has 32 bytes. -/
theorem redemption_requested_passed_through (handler : RedemptionRequestedHandler σ)
    (DepositContractAddress Requester : Address) (Digest : FixedBytes 32)
    (UtxoValue : Option Int) (RedeemerOutputScript : List Byte) (RequestedFee : Option Int)
    (Outpoint : List Byte) (blockNumber : Nat) (t : TBTCEthereumChain)
    (invocations : List RedemptionRequest) (trace : List Call) :
    OnDepositRedemptionRequested.success handler DepositContractAddress Requester Digest
        UtxoValue RedeemerOutputScript RequestedFee Outpoint blockNumber =
      handler DepositContractAddress.Hex Requester.Hex Digest UtxoValue RedeemerOutputScript
        RequestedFee Outpoint blockNumber ∧
    OnDepositRedemptionRequested.success recordRedemptionRequest DepositContractAddress
        Requester Digest UtxoValue RedeemerOutputScript RequestedFee Outpoint blockNumber
        invocations =
      invocations ++ [(DepositContractAddress.Hex, Requester.Hex, Digest, UtxoValue,
        RedeemerOutputScript, RequestedFee, Outpoint, blockNumber)] ∧
    (OnDepositRedemptionRequested
        (Demo.redemptionFeed (List RedemptionRequest) DepositContractAddress Requester Digest
          UtxoValue RedeemerOutputScript RequestedFee Outpoint blockNumber)
        (some t) recordRedemptionRequest { st := invocations, trace := trace }).2.st =
      invocations ++ [(DepositContractAddress.Hex, Requester.Hex, Digest, UtxoValue,
        RedeemerOutputScript, RequestedFee, Outpoint, blockNumber)] ∧
    Digest.val.length = 32 :=
  ⟨rfl, rfl, rfl, Digest.2⟩

/-- C6, counterexample. A DepositCreated log for the address
`0x5aaeb6053f3e94c9b9a09f33669435e7ef1beaed` (emitted at block 100) makes the callback
of `OnDepositCreated` invoke the handler once, with the mixed-case string
`0x5aAeb6053F3E94C9b9A09f33669435E7Ef1BeAed`, which is not the lower-case rendering. -/
theorem deposit_created_address_is_not_lower_case :
    Spec.lowerHex (HexToAddress Demo.address) =
      ascii "0x5aaeb6053f3e94c9b9a09f33669435e7ef1beaed" ∧
    OnDepositCreated.success recordDeposit (HexToAddress Demo.address) (Demo.fill 20 0)
        (some 0) 100 [] =
      [ascii "0x5aAeb6053F3E94C9b9A09f33669435E7Ef1BeAed"] ∧
    OnDepositCreated.success recordDeposit (HexToAddress Demo.address) (Demo.fill 20 0)
        (some 0) 100 [] ≠
      [Spec.lowerHex (HexToAddress Demo.address)] := by
  decide!

/-- C6, amended. For every DepositCreated log, the callback of `OnDepositCreated` is one
invocation of the handler with the `Hex()` rendering of the deposit address,
independent of the keep address, timestamp and block number of the log; with a
recording handler the log of invocations grows by exactly that one string, also when
the log is delivered by a feed through `OnDepositCreated` itself. The rendering has 42
bytes, begins with `0x`, and equals the canonical lower-case hex of the 20-byte address
once its letters are lower-cased (the case of each letter is the one the EIP-55
checksum gives it). The callbacks of the other four event kinds pass the same rendering
of the deposit address to their handlers, and each of the four methods
`OnDepositRegisteredPubkey`, `OnDepositRedemptionRequested`,
`OnDepositGotRedemptionSignature` and `OnDepositRedeemed` registers that callback: with
any collaborators the method hands it to its `Watch` method, and when a feed delivers
one log through the method, a recording handler records exactly one invocation, with
that rendering of the deposit address. -/
theorem deposit_address_rendered_by_Hex (handler : DepositHandler σ)
    (redemptionHandler : RedemptionRequestedHandler σ)
    (DepositContractAddress KeepAddress Requester : Address) (Timestamp : Option Int)
    (blockNumber : Nat) (b1 b2 b3 : FixedBytes 32) (UtxoValue RequestedFee : Option Int)
    (RedeemerOutputScript Outpoint : List Byte) (t : TBTCEthereumChain)
    (invocations : List GoString) (requests : List RedemptionRequest) (trace : List Call)
    (env : Collaborators σ) (w : World σ) :
    OnDepositCreated.success handler DepositContractAddress KeepAddress Timestamp blockNumber =
      handler DepositContractAddress.Hex ∧
    OnDepositCreated.success recordDeposit DepositContractAddress KeepAddress Timestamp
        blockNumber invocations =
      invocations ++ [DepositContractAddress.Hex] ∧
    (OnDepositCreated
        (Demo.createdFeed (List GoString) DepositContractAddress KeepAddress Timestamp
          blockNumber)
        (some t) recordDeposit { st := invocations, trace := trace }).2.st =
      invocations ++ [DepositContractAddress.Hex] ∧
    DepositContractAddress.Hex.length = 42 ∧
    DepositContractAddress.Hex.take 2 = ascii "0x" ∧
    DepositContractAddress.Hex.map Spec.toLower = Spec.lowerHex DepositContractAddress ∧
    OnDepositRegisteredPubkey.success handler DepositContractAddress b1 b2 Timestamp
        blockNumber =
      handler DepositContractAddress.Hex ∧
    OnDepositRedemptionRequested.success redemptionHandler DepositContractAddress Requester b1
        UtxoValue RedeemerOutputScript RequestedFee Outpoint blockNumber =
      redemptionHandler DepositContractAddress.Hex Requester.Hex b1 UtxoValue
        RedeemerOutputScript RequestedFee Outpoint blockNumber ∧
    OnDepositGotRedemptionSignature.success handler DepositContractAddress b1 b2 b3 Timestamp
        blockNumber =
      handler DepositContractAddress.Hex ∧
    OnDepositRedeemed.success handler DepositContractAddress b1 Timestamp blockNumber =
      handler DepositContractAddress.Hex ∧
    OnDepositCreated env (some t) handler w =
      (.returned
        (env.WatchCreated t.tbtcSystemContract
          (fun deposit _ _ _ => handler deposit.Hex) (OnDepositCreated.fail handler)
          none none w.st).1,
        { st := (env.WatchCreated t.tbtcSystemContract
            (fun deposit _ _ _ => handler deposit.Hex) (OnDepositCreated.fail handler)
            none none w.st).2,
          trace := w.trace ++ [.WatchCreated t.tbtcSystemContract] }) ∧
    OnDepositRegisteredPubkey env (some t) handler w =
      (.returned
        (env.WatchRegisteredPubkey t.tbtcSystemContract
          (fun deposit _ _ _ _ => handler deposit.Hex) (OnDepositRegisteredPubkey.fail handler)
          none w.st).1,
        { st := (env.WatchRegisteredPubkey t.tbtcSystemContract
            (fun deposit _ _ _ _ => handler deposit.Hex)
            (OnDepositRegisteredPubkey.fail handler) none w.st).2,
          trace := w.trace ++ [.WatchRegisteredPubkey t.tbtcSystemContract] }) ∧
    OnDepositRedemptionRequested env (some t) redemptionHandler w =
      (.returned
        (env.WatchRedemptionRequested t.tbtcSystemContract
          (fun deposit requester digest utxoValue script fee outpoint block =>
            redemptionHandler deposit.Hex requester.Hex digest utxoValue script fee outpoint
              block)
          (OnDepositRedemptionRequested.fail redemptionHandler) none none none w.st).1,
        { st := (env.WatchRedemptionRequested t.tbtcSystemContract
            (fun deposit requester digest utxoValue script fee outpoint block =>
              redemptionHandler deposit.Hex requester.Hex digest utxoValue script fee outpoint
                block)
            (OnDepositRedemptionRequested.fail redemptionHandler) none none none w.st).2,
          trace := w.trace ++ [.WatchRedemptionRequested t.tbtcSystemContract] }) ∧
    OnDepositGotRedemptionSignature env (some t) handler w =
      (.returned
        (env.WatchGotRedemptionSignature t.tbtcSystemContract
          (fun deposit _ _ _ _ _ => handler deposit.Hex)
          (OnDepositGotRedemptionSignature.fail handler) none none w.st).1,
        { st := (env.WatchGotRedemptionSignature t.tbtcSystemContract
            (fun deposit _ _ _ _ _ => handler deposit.Hex)
            (OnDepositGotRedemptionSignature.fail handler) none none w.st).2,
          trace := w.trace ++ [.WatchGotRedemptionSignature t.tbtcSystemContract] }) ∧
    OnDepositRedeemed env (some t) handler w =
      (.returned
        (env.WatchRedeemed t.tbtcSystemContract
          (fun deposit _ _ _ => handler deposit.Hex) (OnDepositRedeemed.fail handler)
          none none w.st).1,
        { st := (env.WatchRedeemed t.tbtcSystemContract
            (fun deposit _ _ _ => handler deposit.Hex) (OnDepositRedeemed.fail handler)
            none none w.st).2,
          trace := w.trace ++ [.WatchRedeemed t.tbtcSystemContract] }) ∧
    (OnDepositRegisteredPubkey
        (Demo.registeredPubkeyFeed (List GoString) DepositContractAddress b1 b2 Timestamp
          blockNumber)
        (some t) recordDeposit { st := invocations, trace := trace }).2.st =
      invocations ++ [DepositContractAddress.Hex] ∧
    (OnDepositRedemptionRequested
        (Demo.redemptionFeed (List RedemptionRequest) DepositContractAddress Requester b1
          UtxoValue RedeemerOutputScript RequestedFee Outpoint blockNumber)
        (some t) recordRedemptionRequest { st := requests, trace := trace }).2.st =
      requests ++ [(DepositContractAddress.Hex, Requester.Hex, b1, UtxoValue,
        RedeemerOutputScript, RequestedFee, Outpoint, blockNumber)] ∧
    (OnDepositGotRedemptionSignature
        (Demo.gotRedemptionSignatureFeed (List GoString) DepositContractAddress b1 b2 b3
          Timestamp blockNumber)
        (some t) recordDeposit { st := invocations, trace := trace }).2.st =
      invocations ++ [DepositContractAddress.Hex] ∧
    (OnDepositRedeemed
        (Demo.redeemedFeed (List GoString) DepositContractAddress b1 Timestamp blockNumber)
        (some t) recordDeposit { st := invocations, trace := trace }).2.st =
      invocations ++ [DepositContractAddress.Hex] :=
  ⟨rfl, rfl, rfl, Hex_length _, Hex_take _, Hex_toLower _, rfl, rfl, rfl, rfl,
    rfl, rfl, rfl, rfl, rfl, rfl, rfl, rfl, rfl⟩

/-- C8. Each of the five subscription methods registers, next to its `success` callback,
a dedicated `fail` callback: with any collaborators, the method hands its `Watch` method
a `fail` callback which, applied to any feed error, leaves the state as it is whatever
the domain-event handler is (the handler is not invoked) and returns a non-nil error
whose message is the prefix of the event kind followed by the text of the feed error in
square brackets. The message of that error is this text. When a feed reports an error
through any of the five methods, a recording handler records nothing and the caller
gets the error with the prefix of that method. -/
theorem watch_failure_goes_to_fail_callback (handler : DepositHandler σ)
    (redemptionHandler : RedemptionRequestedHandler σ) (err : GoError) (st : σ)
    (t : TBTCEthereumChain) (invocations : List GoString) (requests : List RedemptionRequest)
    (trace : List Call) (env : Collaborators σ) (w : World σ) :
    (OnDepositCreated.fail handler (some err) st =
        (some (.errorString
          (ascii "watch deposit created failed: " ++ ascii "[" ++ err.Error ++ ascii "]")),
          st)) ∧
    (OnDepositRegisteredPubkey.fail handler (some err) st =
        (some (.errorString
          (ascii "watch deposit registered pubkey failed: " ++ ascii "[" ++ err.Error ++
            ascii "]")), st)) ∧
    (OnDepositRedemptionRequested.fail redemptionHandler (some err) st =
        (some (.errorString
          (ascii "watch deposit redemption requested failed: " ++ ascii "[" ++ err.Error ++
            ascii "]")), st)) ∧
    (OnDepositGotRedemptionSignature.fail handler (some err) st =
        (some (.errorString
          (ascii "watch deposit got redemption signature failed: " ++ ascii "[" ++
            err.Error ++ ascii "]")), st)) ∧
    (OnDepositRedeemed.fail handler (some err) st =
        (some (.errorString
          (ascii "watch deposit redeemed failed: " ++ ascii "[" ++ err.Error ++ ascii "]")),
          st)) ∧
    (GoError.errorString
        (ascii "watch deposit created failed: " ++ ascii "[" ++ err.Error ++ ascii "]")).Error =
      ascii "watch deposit created failed: " ++ ascii "[" ++ err.Error ++ ascii "]" ∧
    OnDepositCreated (Demo.failingFeed (List GoString) err) (some t) recordDeposit
        { st := invocations, trace := trace } =
      (.returned (none, some (.errorString
          (ascii "watch deposit created failed: " ++ ascii "[" ++ err.Error ++ ascii "]"))),
        { st := invocations, trace := trace ++ [.WatchCreated t.tbtcSystemContract] }) ∧
    (∃ fail : FailCallback σ,
      (∀ e s, fail (some e) s =
        (some (.errorString
          (ascii "watch deposit created failed: " ++ ascii "[" ++ e.Error ++ ascii "]")), s)) ∧
      OnDepositCreated env (some t) handler w =
        (.returned
          (env.WatchCreated t.tbtcSystemContract (OnDepositCreated.success handler) fail
            none none w.st).1,
          { st := (env.WatchCreated t.tbtcSystemContract (OnDepositCreated.success handler)
              fail none none w.st).2,
            trace := w.trace ++ [.WatchCreated t.tbtcSystemContract] })) ∧
    (∃ fail : FailCallback σ,
      (∀ e s, fail (some e) s =
        (some (.errorString
          (ascii "watch deposit registered pubkey failed: " ++ ascii "[" ++ e.Error ++
            ascii "]")), s)) ∧
      OnDepositRegisteredPubkey env (some t) handler w =
        (.returned
          (env.WatchRegisteredPubkey t.tbtcSystemContract
            (OnDepositRegisteredPubkey.success handler) fail none w.st).1,
          { st := (env.WatchRegisteredPubkey t.tbtcSystemContract
              (OnDepositRegisteredPubkey.success handler) fail none w.st).2,
            trace := w.trace ++ [.WatchRegisteredPubkey t.tbtcSystemContract] })) ∧
    (∃ fail : FailCallback σ,
      (∀ e s, fail (some e) s =
        (some (.errorString
          (ascii "watch deposit redemption requested failed: " ++ ascii "[" ++ e.Error ++
            ascii "]")), s)) ∧
      OnDepositRedemptionRequested env (some t) redemptionHandler w =
        (.returned
          (env.WatchRedemptionRequested t.tbtcSystemContract
            (OnDepositRedemptionRequested.success redemptionHandler) fail none none none
            w.st).1,
          { st := (env.WatchRedemptionRequested t.tbtcSystemContract
              (OnDepositRedemptionRequested.success redemptionHandler) fail none none none
              w.st).2,
            trace := w.trace ++ [.WatchRedemptionRequested t.tbtcSystemContract] })) ∧
    (∃ fail : FailCallback σ,
      (∀ e s, fail (some e) s =
        (some (.errorString
          (ascii "watch deposit got redemption signature failed: " ++ ascii "[" ++ e.Error ++
            ascii "]")), s)) ∧
      OnDepositGotRedemptionSignature env (some t) handler w =
        (.returned
          (env.WatchGotRedemptionSignature t.tbtcSystemContract
            (OnDepositGotRedemptionSignature.success handler) fail none none w.st).1,
          { st := (env.WatchGotRedemptionSignature t.tbtcSystemContract
              (OnDepositGotRedemptionSignature.success handler) fail none none w.st).2,
            trace := w.trace ++ [.WatchGotRedemptionSignature t.tbtcSystemContract] })) ∧
    (∃ fail : FailCallback σ,
      (∀ e s, fail (some e) s =
        (some (.errorString
          (ascii "watch deposit redeemed failed: " ++ ascii "[" ++ e.Error ++ ascii "]")), s)) ∧
      OnDepositRedeemed env (some t) handler w =
        (.returned
          (env.WatchRedeemed t.tbtcSystemContract (OnDepositRedeemed.success handler) fail
            none none w.st).1,
          { st := (env.WatchRedeemed t.tbtcSystemContract (OnDepositRedeemed.success handler)
              fail none none w.st).2,
            trace := w.trace ++ [.WatchRedeemed t.tbtcSystemContract] })) ∧
    OnDepositRegisteredPubkey (Demo.failingFeed (List GoString) err) (some t) recordDeposit
        { st := invocations, trace := trace } =
      (.returned (none, some (.errorString
          (ascii "watch deposit registered pubkey failed: " ++ ascii "[" ++ err.Error ++
            ascii "]"))),
        { st := invocations, trace := trace ++ [.WatchRegisteredPubkey t.tbtcSystemContract] }) ∧
    OnDepositRedemptionRequested (Demo.failingFeed (List RedemptionRequest) err) (some t)
        recordRedemptionRequest { st := requests, trace := trace } =
      (.returned (none, some (.errorString
          (ascii "watch deposit redemption requested failed: " ++ ascii "[" ++ err.Error ++
            ascii "]"))),
        { st := requests,
          trace := trace ++ [.WatchRedemptionRequested t.tbtcSystemContract] }) ∧
    OnDepositGotRedemptionSignature (Demo.failingFeed (List GoString) err) (some t)
        recordDeposit { st := invocations, trace := trace } =
      (.returned (none, some (.errorString
          (ascii "watch deposit got redemption signature failed: " ++ ascii "[" ++
            err.Error ++ ascii "]"))),
        { st := invocations,
          trace := trace ++ [.WatchGotRedemptionSignature t.tbtcSystemContract] }) ∧
    OnDepositRedeemed (Demo.failingFeed (List GoString) err) (some t) recordDeposit
        { st := invocations, trace := trace } =
      (.returned (none, some (.errorString
          (ascii "watch deposit redeemed failed: " ++ ascii "[" ++ err.Error ++ ascii "]"))),
        { st := invocations, trace := trace ++ [.WatchRedeemed t.tbtcSystemContract] }) := by
  have h1 : ascii "watch deposit created failed: [" =
      ascii "watch deposit created failed: " ++ ascii "[" := by decide
  have h2 : ascii "watch deposit registered pubkey failed: [" =
      ascii "watch deposit registered pubkey failed: " ++ ascii "[" := by decide
  have h3 : ascii "watch deposit redemption requested failed: [" =
      ascii "watch deposit redemption requested failed: " ++ ascii "[" := by decide
  have h4 : ascii "watch deposit got redemption signature failed: [" =
      ascii "watch deposit got redemption signature failed: " ++ ascii "[" := by decide
  have h5 : ascii "watch deposit redeemed failed: [" =
      ascii "watch deposit redeemed failed: " ++ ascii "[" := by decide
  refine ⟨?_, ?_, ?_, ?_, ?_, rfl, ?_, ?_, ?_, ?_, ?_, ?_, ?_, ?_, ?_, ?_⟩
  · simp only [OnDepositCreated.fail, fmtErrorV, h1]
  · simp only [OnDepositRegisteredPubkey.fail, fmtErrorV, h2]
  · simp only [OnDepositRedemptionRequested.fail, fmtErrorV, h3]
  · simp only [OnDepositGotRedemptionSignature.fail, fmtErrorV, h4]
  · simp only [OnDepositRedeemed.fail, fmtErrorV, h5]
  · simp only [OnDepositCreated, Demo.failingFeed, OnDepositCreated.fail, fmtErrorV, h1]
  · refine ⟨OnDepositCreated.fail handler, ?_, rfl⟩
    intro e s
    simp only [OnDepositCreated.fail, fmtErrorV, h1]
  · refine ⟨OnDepositRegisteredPubkey.fail handler, ?_, rfl⟩
    intro e s
    simp only [OnDepositRegisteredPubkey.fail, fmtErrorV, h2]
  · refine ⟨OnDepositRedemptionRequested.fail redemptionHandler, ?_, rfl⟩
    intro e s
    simp only [OnDepositRedemptionRequested.fail, fmtErrorV, h3]
  · refine ⟨OnDepositGotRedemptionSignature.fail handler, ?_, rfl⟩
    intro e s
    simp only [OnDepositGotRedemptionSignature.fail, fmtErrorV, h4]
  · refine ⟨OnDepositRedeemed.fail handler, ?_, rfl⟩
    intro e s
    simp only [OnDepositRedeemed.fail, fmtErrorV, h5]
  · simp only [OnDepositRegisteredPubkey, Demo.failingFeed, OnDepositRegisteredPubkey.fail,
      fmtErrorV, h2]
  · simp only [OnDepositRedemptionRequested, Demo.failingFeed,
      OnDepositRedemptionRequested.fail, fmtErrorV, h3]
  · simp only [OnDepositGotRedemptionSignature, Demo.failingFeed,
      OnDepositGotRedemptionSignature.fail, fmtErrorV, h4]
  · simp only [OnDepositRedeemed, Demo.failingFeed, OnDepositRedeemed.fail, fmtErrorV, h5]

/-- C10. Every contract handle this layer constructs shares the resources of the base
chain handle. For every gateway that `WithTBTCExtension` builds, the base chain handle
`c` it was given is not nil and is the one the gateway holds; the TBTCSystem handle the
gateway holds is the one `contract.NewTBTCSystem` returned, and that call was made with
the account key, client, nonce manager, mining waiter and transaction mutex of `c`; for
every valid address and in every later world, `getDepositContract` calls
`contract.NewDeposit` exactly once, with the same five resources; a mutating operation
on a valid address makes that one call and then at most one submission, on the handle
that call returned; and after any sequence of operations of the gateway, every call
added to the trace that builds a handle uses the five resources of `c` and every watch
is opened on the TBTCSystem handle of the gateway. -/
theorem handles_share_base_resources (env : Collaborators σ)
    (ethereumChain : Option EthereumChain) (tbtcSystemContractAddress : GoString)
    (w w1 : World σ) (gateway : TBTCEthereumChain)
    (hbuilt : WithTBTCExtension env ethereumChain tbtcSystemContractAddress w =
      (.returned (some gateway, none), w1)) :
    ∃ c, ethereumChain = some c ∧ gateway.EthereumChain = some c ∧
      gateway.tbtcSystemContract =
        (env.NewTBTCSystem (HexToAddress tbtcSystemContractAddress) c.accountKey c.client
          c.nonceManager c.miningWaiter c.transactionMutex w.st).1.1 ∧
      w1.trace = w.trace ++ [.NewTBTCSystem (HexToAddress tbtcSystemContractAddress)
        c.accountKey c.client c.nonceManager c.miningWaiter c.transactionMutex] ∧
      (∀ address w2, Spec.ValidHexAddress address →
        (getDepositContract env (some gateway) address w2).2.trace =
          w2.trace ++ [.NewDeposit (HexToAddress address) c.accountKey c.client
            c.nonceManager c.miningWaiter c.transactionMutex]) ∧
      (∀ (m : Mutation) address w2, Spec.ValidHexAddress address →
        (m.run env (some gateway) address w2).2.trace =
          w2.trace ++ [.NewDeposit (HexToAddress address) c.accountKey c.client
            c.nonceManager c.miningWaiter c.transactionMutex] ∨
        ∃ tail, (m.run env (some gateway) address w2).2.trace =
          w2.trace ++ [.NewDeposit (HexToAddress address) c.accountKey c.client
            c.nonceManager c.miningWaiter c.transactionMutex,
            m.call (env.NewDeposit (HexToAddress address) c.accountKey c.client
              c.nonceManager c.miningWaiter c.transactionMutex w2.st).1.1] ++ tail ∧
          tail.countP Call.isSubmission = 0) ∧
      (∀ (ops : List (Op σ)) (w2 : World σ),
        ∃ added, (runOps env (some gateway) ops w2).trace = w2.trace ++ added ∧
          ∀ call ∈ added, call.SharesResources c gateway.tbtcSystemContract) := by
  obtain ⟨c, h1, h2, h3, h4⟩ := WithTBTCExtension_built_inv env ethereumChain
    tbtcSystemContractAddress w w1 gateway none hbuilt
  refine ⟨c, h1, h2, h3, h4, ?_, ?_, ?_⟩
  · intro address w2 hv
    have hx := (IsHexAddress_iff address).2 hv
    rcases hn : env.NewDeposit (HexToAddress address) c.accountKey c.client c.nonceManager
      c.miningWaiter c.transactionMutex w2.st with ⟨⟨d, e⟩, st1⟩
    cases e with
    | some e => rw [getDepositContract_err env gateway c h2 address w2 hx d e st1 hn]
    | none => rw [getDepositContract_ok env gateway c h2 address w2 hx d st1 hn]
  · intro m address w2 hv
    have hx := (IsHexAddress_iff address).2 hv
    rcases hn : env.NewDeposit (HexToAddress address) c.accountKey c.client c.nonceManager
      c.miningWaiter c.transactionMutex w2.st with ⟨⟨d, e⟩, st1⟩
    cases e with
    | some e =>
      left
      rw [Mutation.run_of_unresolved env _ address m w2 _ none e
        (getDepositContract_err env gateway c h2 address w2 hx d e st1 hn)]
    | none =>
      right
      have hres := getDepositContract_ok env gateway c h2 address w2 hx d st1 hn
      rcases hsb : m.submit env d st1 with ⟨⟨tx, e⟩, st2⟩
      rw [Mutation.run_of_resolved env _ address m w2 _ d hres tx e st2 hsb]
      cases e with
      | some e => exact ⟨[], by simp, by simp⟩
      | none =>
        cases tx with
        | none => exact ⟨[], by simp, by simp⟩
        | some tx =>
          exact ⟨[.Debugf m.format tx.Hash], by simp,
            by simp [List.countP_cons, isSubmission_Debugf]⟩
  · intro ops w2
    exact runOps_shares env gateway c h2 ops w2

/-- Witness of C10: on the simulated ledger `WithTBTCExtension` builds the gateway over
the base chain handle with the resources 1 to 5, and a client that then reads a keep
address, submits a transaction and opens a watch only adds calls that share them. -/
theorem handles_share_base_resources_witness :
    WithTBTCExtension (Demo.env (none, none)) (some Demo.chain) Demo.address Demo.world =
      (.returned (some Demo.gateway, none),
        { st := 1, trace := [.NewTBTCSystem (HexToAddress Demo.address) 1 2 3 4 5] }) ∧
    ∃ added,
      (runOps (Demo.env (none, none)) (some Demo.gateway)
        [.KeepAddress Demo.address, .RetrieveSignerPubkey Demo.address,
          .OnDepositCreated (fun _ st => st)] Demo.world).trace =
        Demo.world.trace ++ added ∧
      ∀ call ∈ added, call.SharesResources Demo.chain Demo.gateway.tbtcSystemContract := by
  have hx : IsHexAddress Demo.address = true := by decide
  have hz : HexToAddress Demo.address ≠ Address.zero := by decide
  have hb : WithTBTCExtension (Demo.env (none, none)) (some Demo.chain) Demo.address
      Demo.world =
      (.returned (some Demo.gateway, none),
        { st := 1, trace := [.NewTBTCSystem (HexToAddress Demo.address) 1 2 3 4 5] }) := by
    simp only [WithTBTCExtension, hx, Demo.env, hz, if_false]
    rfl
  obtain ⟨c, h1, _, _, _, _, _, h6⟩ := handles_share_base_resources (Demo.env (none, none))
    (some Demo.chain) Demo.address Demo.world _ Demo.gateway hb
  cases h1
  exact ⟨hb, h6 _ Demo.world⟩

/-- Witness of C3: on the simulated ledger a malformed address gives a nil gateway and the
address error without any call, and a well-formed address with no contract behind it
gives a nil gateway and the error of the setup. -/
theorem WithTBTCExtension_all_or_nothing_witness :
    ¬ Spec.ValidHexAddress Demo.malformed ∧
    WithTBTCExtension (Demo.env (none, none)) (some Demo.chain) Demo.malformed Demo.world =
      (.returned
        (none, some (.errorString (ascii "incorrect TBTCSystem contract address"))),
        Demo.world) ∧
    Spec.ValidHexAddress Demo.unknown ∧
    WithTBTCExtension (Demo.env (none, none)) (some Demo.chain) Demo.unknown Demo.world =
      (.returned (none, some (.foreign 1 (ascii "no contract code"))),
        { st := 1, trace := [.NewTBTCSystem (HexToAddress Demo.unknown) 1 2 3 4 5] }) :=
  ⟨by decide,
    (WithTBTCExtension_all_or_nothing (Demo.env (none, none)) (some Demo.chain) Demo.malformed
      Demo.world).1 (by decide),
    by decide!,
    (WithTBTCExtension_all_or_nothing (Demo.env (none, none)) (some Demo.chain) Demo.unknown
      Demo.world).2.1 Demo.chain none (.foreign 1 (ascii "no contract code")) 1 rfl (by decide!)
      (by
        have hz : HexToAddress Demo.unknown = Address.zero := by decide
        simp only [Demo.env, hz, if_true]; rfl)⟩

/-- Witness of C2: in the configuration of the simulated setup the name `TBTCSystem`
resolves to the address of its entry, the name `KeepTECDSAGroup` has a malformed entry
and an unknown name has none; both give the zero address and an error. -/
theorem ContractAddress_error_iff_witness :
    Config.ContractAddress (some Demo.config) (ascii "TBTCSystem") =
      .returned (HexToAddress Demo.address, none) ∧
    Config.ContractAddress (some Demo.config) KeepTECDSAGroupContractName =
      .returned (Address.zero, some (.errorString
        (ascii "configured address [0x5aAeb6053F3E94C9b9A09f33669435E7Ef1BeAe] for contract [KeepTECDSAGroup] is not valid hex address"))) ∧
    Config.ContractAddress (some Demo.config) (ascii "BondedECDSAKeepFactory") =
      .returned (Address.zero, some (.errorString
        (ascii "configuration for contract [BondedECDSAKeepFactory] not found"))) ∧
    ∃ address err,
      Config.ContractAddress (some Demo.config) (ascii "TBTCSystem") = .returned (address, err) ∧
      (err ≠ none ↔
        (Demo.config.ContractAddresses (ascii "TBTCSystem") = none ∨
          ∃ value, Demo.config.ContractAddresses (ascii "TBTCSystem") = some value ∧
            ¬ Spec.ValidHexAddress value)) ∧
      (err ≠ none → address = Address.zero) ∧
      (err = none →
        ∃ value, Demo.config.ContractAddresses (ascii "TBTCSystem") = some value ∧
          address = HexToAddress value ∧
          Spec.lowerHex address = ascii "0x" ++ (Spec.digits value).map Spec.toLower) :=
  ⟨by decide!, by decide!, by decide!,
    ContractAddress_error_iff Demo.config (ascii "TBTCSystem")⟩

end ethereum
